import Mathlib

/-!
Appium installer: the installation pipeline.

A verification development for the Go program in `installer.go`, `utils.go`
and `environment.go`.

The program is a sequence of calls into the operating system (processes,
file system, environment, network).  Each such call is an `Op`; a Go function
becomes a `Prog`, the tree of calls it makes, branching on the answers it
gets.  A `Sys` gives the answers: it is an arbitrary handler over an arbitrary
world type, so that a theorem quantified over `Sys` and the initial world
speaks about every outcome of the collaborators.  Running a `Prog` yields the
returned value, the final world and the chronological trace of calls with
their answers.

Go's `error` is `Option String` (`none` is `nil`, `some e` an error with text
`e`).  Console output written inside the step functions is not modelled; the
two progress lines of the pipeline loop are, as they delimit the invocation
of each step.  `Close` calls are not modelled.
-/

namespace AppiumInstaller

/-! ## Data model -/

/-- Go's `error`: `none` is `nil`, `some e` is an error whose text is `e`. -/
abbrev GoError := Option String

/-- Result of `os.Stat` as the program observes it: success, an error for
which `os.IsNotExist` holds, or any other error. -/
inductive StatResult where
  | ok
  | notExist
  | otherErr (msg : String)
  deriving DecidableEq, Repr

/-- An `exec.Cmd`: program name, arguments, and working directory (`Dir`,
empty when unset). -/
structure Cmd where
  name : String
  args : List String
  dir : String
  deriving DecidableEq, Repr

/-- One entry of a zip archive (`zip.File`): its name, what
`FileInfo().IsDir()` and `FileInfo().Mode()` report, and the bytes its reader
yields. -/
structure ZipFile where
  name : String
  isDir : Bool
  mode : Nat
  content : List Nat
  deriving DecidableEq, Repr

/-- Calls into the operating system and the Go standard library that have an
effect or read the environment. -/
inductive Op where
  /-- Go call `os.TempDir()` -/
  | tempDir
  /-- Go call `os.Getenv(key)` -/
  | getenv (key : String)
  /-- Go call `os.Setenv(key, value)` -/
  | setenv (key value : String)
  /-- Go call `os.Stat(path)` -/
  | stat (path : String)
  /-- Go call `os.MkdirAll(path, perm)` -/
  | mkdirAll (path : String) (perm : Nat)
  /-- Go call `os.RemoveAll(path)` -/
  | removeAll (path : String)
  /-- Go call `exec.LookPath(file)` -/
  | lookPath (file : String)
  /-- Go call `cmd.Run()` -/
  | cmdRun (c : Cmd)
  /-- Go call `cmd.Output()` -/
  | cmdOutput (c : Cmd)
  /-- Go call `cmd.CombinedOutput()` -/
  | cmdCombinedOutput (c : Cmd)
  /-- Go call `http.Get(url)` -/
  | httpGet (url : String)
  /-- Go call `os.Create(path)` -/
  | create (path : String)
  /-- Go call `os.OpenFile(path, os.O_WRONLY|os.O_CREATE|os.O_TRUNC, perm)` -/
  | openFile (path : String) (perm : Nat)
  /-- Go statement `for k, v := range m` over a map with `n` entries: the
  runtime picks the order in which the entries are visited -/
  | rangeMap (n : Nat)
  /-- Go call `io.Copy(dst, src)` where `dst` is the file opened at the path and `src`
  a reader over the bytes -/
  | copy (dst : String) (data : List Nat)
  /-- Go call `zip.OpenReader(src)` -/
  | zipOpenReader (src : String)
  /-- Go call `f.Open()` on an archive entry -/
  | zipFileOpen (f : ZipFile)
  /-- The progress line `[idx/total] name...` of the pipeline loop -/
  | stepStart (idx total : Nat) (name : String)
  /-- The completion line of the pipeline loop (and the separator after it) -/
  | stepDone (name : String)
  deriving DecidableEq, Repr

/-- What each call answers. -/
@[reducible] def Resp : Op → Type
  | .tempDir => String
  | .getenv _ => String
  | .setenv _ _ => GoError
  | .stat _ => StatResult
  | .mkdirAll _ _ => GoError
  | .removeAll _ => GoError
  | .lookPath _ => GoError
  | .cmdRun _ => GoError
  | .cmdOutput _ => String × GoError
  | .cmdCombinedOutput _ => String × GoError
  | .httpGet _ => Except String (List Nat)
  | .create _ => GoError
  | .openFile _ _ => GoError
  | .rangeMap n => { order : List (Fin n) // order.Perm (List.finRange n) }
  | .copy _ _ => GoError
  | .zipOpenReader _ => Except String (List ZipFile)
  | .zipFileOpen _ => GoError
  | .stepStart _ _ _ => Unit
  | .stepDone _ => Unit

/-- A call together with its answer. -/
structure Event where
  op : Op
  resp : Resp op

/-- A program: the tree of calls a Go function makes. -/
inductive Prog (α : Type) where
  | ret (a : α)
  | call (op : Op) (k : Resp op → Prog α)

namespace Prog

/-- Sequencing. -/
def bind {α β : Type} : Prog α → (α → Prog β) → Prog β
  | ret a, f => f a
  | call op k, f => call op (fun r => bind (k r) f)

instance : Monad Prog where
  pure := ret
  bind := bind

end Prog

/-- The collaborators: an answer and a successor world for every call. -/
structure Sys (W : Type) where
  handle : (op : Op) → W → Resp op × W

/-- Result of a run: returned value, final world, trace of calls. -/
structure Outcome (α W : Type) where
  val : α
  world : W
  trace : List Event

/-- Run a program against the collaborators from a world. -/
def Prog.run {α W : Type} (sys : Sys W) : Prog α → W → Outcome α W
  | .ret a, w => ⟨a, w, []⟩
  | .call op k, w =>
      let r := sys.handle op w
      let o := Prog.run sys (k r.1) r.2
      ⟨o.val, o.world, ⟨op, r.1⟩ :: o.trace⟩

/-- The pure library functions the program uses (`path/filepath`, `strings`,
`runtime.GOOS`). -/
structure Lib where
  /-- Go call `filepath.Join(elem...)` -/
  join : List String → String
  /-- Go call `filepath.Dir(path)` -/
  dir : String → String
  /-- Go call `strings.TrimSpace(s)` -/
  trimSpace : String → String
  /-- Go call `runtime.GOOS` -/
  goos : String

/-- The package-level constants the program refers to. -/
structure Config where
  NodeURL : String
  JavaURL : String
  AndroidURL : String
  DefaultInstallPath : String

/-- The `Installer` struct. -/
structure Installer where
  installPath : String
  projectPath : String
  tempPath : String
  deriving DecidableEq, Repr

/-! ## Primitive calls -/

def osTempDir : Prog String := .call .tempDir .ret
def osGetenv (key : String) : Prog String := .call (.getenv key) .ret
def osSetenv (key value : String) : Prog GoError := .call (.setenv key value) .ret
def osStat (path : String) : Prog StatResult := .call (.stat path) .ret
def osMkdirAll (path : String) (perm : Nat) : Prog GoError := .call (.mkdirAll path perm) .ret
def osRemoveAll (path : String) : Prog GoError := .call (.removeAll path) .ret
def execLookPath (file : String) : Prog GoError := .call (.lookPath file) .ret
def cmdRun (c : Cmd) : Prog GoError := .call (.cmdRun c) .ret
def cmdOutput (c : Cmd) : Prog (String × GoError) := .call (.cmdOutput c) .ret
def cmdCombinedOutput (c : Cmd) : Prog (String × GoError) := .call (.cmdCombinedOutput c) .ret
def httpGet (url : String) : Prog (Except String (List Nat)) := .call (.httpGet url) .ret
def osCreate (path : String) : Prog GoError := .call (.create path) .ret
def osOpenFile (path : String) (perm : Nat) : Prog GoError := .call (.openFile path perm) .ret
def ioCopy (dst : String) (data : List Nat) : Prog GoError := .call (.copy dst data) .ret
def zipOpenReader (src : String) : Prog (Except String (List ZipFile)) :=
  .call (.zipOpenReader src) .ret
def zipFileOpen (f : ZipFile) : Prog GoError := .call (.zipFileOpen f) .ret
def rangeMap (n : Nat) : Prog { order : List (Fin n) // order.Perm (List.finRange n) } :=
  .call (.rangeMap n) .ret
def printStepStart (idx total : Nat) (name : String) : Prog Unit :=
  .call (.stepStart idx total name) .ret
def printStepDone (name : String) : Prog Unit := .call (.stepDone name) .ret

/-- Go predicate `os.IsNotExist(err)` on the error of an `os.Stat`. -/
def isNotExist : StatResult → Bool
  | .notExist => true
  | _ => false

/-! ## utils.go -/

def downloadFile (url filepath : String) : Prog GoError := do
  match ← httpGet url with
  | .error err => pure (some err)
  | .ok body =>
    match ← osCreate filepath with
    | some err => pure (some err)
    | none => ioCopy filepath body

/-- The loop of `extractZip` over `r.File`. -/
def extractFiles (lib : Lib) (dest : String) : List ZipFile → Prog GoError
  | [] => pure none
  | f :: rest => do
    let path := lib.join [dest, f.name]
    if f.isDir then
      let _ ← osMkdirAll path f.mode
      extractFiles lib dest rest
    else
      match ← osMkdirAll (lib.dir path) 0o755 with
      | some err => pure (some err)
      | none =>
        match ← zipFileOpen f with
        | some err => pure (some err)
        | none =>
          match ← osOpenFile path f.mode with
          | some err => pure (some err)
          | none =>
            match ← ioCopy path f.content with
            | some err => pure (some err)
            | none => extractFiles lib dest rest

def extractZip (lib : Lib) (src dest : String) : Prog GoError := do
  match ← zipOpenReader src with
  | .error err => pure (some err)
  | .ok files => extractFiles lib dest files

def commandExists (cmd : String) : Prog Bool := do
  let err ← execLookPath cmd
  pure err.isNone

def runCommand (name : String) (args : List String) : Prog (String × GoError) :=
  cmdOutput ⟨name, args, ""⟩

def runCommandWait (name : String) (args : List String) : Prog GoError :=
  cmdRun ⟨name, args, ""⟩

def fileExists (filename : String) : Prog Bool := do
  let st ← osStat filename
  pure (!isNotExist st)

/-! ## environment.go -/

def setEnvVarPermanent (name value : String) : Prog GoError :=
  runCommandWait "setx" [name, value]

def addToPathPermanent (newPath : String) : Prog GoError :=
  runCommandWait "setx" ["PATH", "%PATH%;" ++ newPath]

def refreshEnvironmentCmd : Prog GoError :=
  cmdRun ⟨"cmd", ["/C", "refreshenv"], ""⟩

/-! ## installer.go -/

def NewInstaller (lib : Lib) (installPath projectPath : String) : Prog Installer := do
  let tmp ← osTempDir
  pure ⟨installPath, projectPath, lib.join [tmp, "AppiumInstaller"]⟩

/-- The loop of `setup` over `dirs`. -/
def setupDirs : List String → Prog GoError
  | [] => pure none
  | dir :: rest => do
    match ← osMkdirAll dir 0o755 with
    | some err => pure (some err)
    | none => setupDirs rest

def setup (i : Installer) : Prog GoError :=
  setupDirs [i.installPath, i.tempPath]

def installNodeJS (lib : Lib) (cfg : Config) (i : Installer) : Prog GoError := do
  if ← commandExists "node" then
    let _ ← runCommand "node" ["--version"]
    pure none
  else
    let nodeInstaller := lib.join [i.tempPath, "nodejs.msi"]
    match ← downloadFile cfg.NodeURL nodeInstaller with
    | some err => pure (some ("download failed: " ++ err))
    | none =>
      match ← runCommandWait "msiexec.exe" ["/i", nodeInstaller, "/quiet", "/norestart"] with
      | some err => pure (some ("installation failed: " ++ err))
      | none => pure none

def installJava (lib : Lib) (cfg : Config) (i : Installer) : Prog GoError := do
  let javaPath := lib.join [i.installPath, "jdk-24.0.1"]
  if isNotExist (← osStat javaPath) then
    let javaZip := lib.join [i.tempPath, "openjdk-24.0.1.zip"]
    match ← downloadFile cfg.JavaURL javaZip with
    | some err => pure (some ("download failed: " ++ err))
    | none =>
      match ← extractZip lib javaZip i.installPath with
      | some err => pure (some ("extraction failed: " ++ err))
      | none => pure none
  else
    pure none

/-- The part of `checkAndInstallADB` after the idempotency check. -/
def installADB (lib : Lib) (cfg : Config) (i : Installer) : Prog GoError := do
  let androidPath := lib.join [i.installPath, "android-sdk"]
  let androidZip := lib.join [i.tempPath, "platform-tools.zip"]
  match ← downloadFile cfg.AndroidURL androidZip with
  | some err => pure (some ("download failed: " ++ err))
  | none =>
    match ← osMkdirAll androidPath 0o755 with
    | some err => pure (some ("failed to create directory: " ++ err))
    | none =>
      match ← extractZip lib androidZip androidPath with
      | some err => pure (some ("extraction failed: " ++ err))
      | none => pure none

def checkAndInstallADB (lib : Lib) (cfg : Config) (i : Installer) : Prog GoError := do
  if ← commandExists "adb" then
    let (_, err) ← runCommand "adb" ["version"]
    if err.isNone then pure none
    else installADB lib cfg i
  else installADB lib cfg i

/-- The part of `installAppium` after the idempotency check. -/
def npmInstallAppium : Prog GoError := do
  let (_, err) ← cmdCombinedOutput ⟨"cmd", ["/C", "npm install -g appium"], ""⟩
  match err with
  | some e => pure (some ("npm install failed: " ++ e))
  | none => pure none

def installAppium : Prog GoError := do
  if ← commandExists "appium" then
    let (_, err) ← runCommand "appium" ["--version"]
    if err.isNone then pure none
    else npmInstallAppium
  else npmInstallAppium

def refreshEnvironment (lib : Lib) : Prog GoError := do
  let _ ← refreshEnvironmentCmd
  let (npmPath, err) ← runCommand "cmd" ["/C", "npm config get prefix"]
  if err.isNone then
    let npmGlobalPath := lib.trimSpace npmPath
    let _ ← osSetenv "PATH" ((← osGetenv "PATH") ++ ";" ++ npmGlobalPath)
    if lib.goos == "windows" then
      let _ ← osSetenv "PATH"
        ((← osGetenv "PATH") ++ ";" ++ lib.join [npmGlobalPath, "node_modules", ".bin"])
      pure none
    else pure none
  else pure none

/-- The slice `appiumPaths` of `checkAndInstallUIAutomator2`. -/
def appiumPaths (username : String) : List String :=
  [ "appium",
    "C:\\Users\\" ++ username ++ "\\AppData\\Roaming\\npm\\appium.cmd",
    "C:\\Program Files\\nodejs\\appium.cmd" ]

/-- The loop of `checkAndInstallUIAutomator2` that selects `appiumCmd`: the
first path for which `commandExists(path) || fileExists(path)`, or `""`. -/
def findAppiumCmd : List String → Prog String
  | [] => pure ""
  | path :: rest => do
    if ← commandExists path then pure path
    else if ← fileExists path then pure path
    else findAppiumCmd rest

def checkAndInstallUIAutomator2 : Prog GoError := do
  let (_, err) ← cmdCombinedOutput ⟨"cmd", ["/C", "npm install -g appium-uiautomator2-driver"], ""⟩
  if err.isNone then pure none
  else
    let paths := appiumPaths (← osGetenv "USERNAME")
    let appiumCmd ← findAppiumCmd paths
    if appiumCmd == "" then
      pure (some "appium command not found, please restart terminal and run: appium driver install uiautomator2")
    else
      let (_, err2) ← cmdCombinedOutput ⟨"cmd", ["/C", appiumCmd, "driver", "install", "uiautomator2"], ""⟩
      if err2.isNone then pure none
      else
        pure (some "UiAutomator2 installation failed, please restart terminal and run: appium driver install uiautomator2")

def installDependencies (lib : Lib) (i : Installer) : Prog GoError := do
  if isNotExist (← osStat i.projectPath) then pure none
  else
    let packageJsonPath := lib.join [i.projectPath, "package.json"]
    if isNotExist (← osStat packageJsonPath) then pure none
    else
      match ← cmdRun ⟨"npm", ["install"], i.projectPath⟩ with
      | some err => pure (some ("npm install failed: " ++ err))
      | none => pure none

/-- The map `envVars` of `setEnvironmentVariables`, entries numbered as
written. -/
def envVars (lib : Lib) (i : Installer) : Fin 3 → String × String
  | 0 => ("JAVA_HOME", lib.join [i.installPath, "jdk-24.0.1"])
  | 1 => ("ANDROID_HOME", lib.join [i.installPath, "android-sdk"])
  | 2 => ("ANDROID_SDK_ROOT", lib.join [i.installPath, "android-sdk"])

/-- The slice `pathsToAdd` of `setEnvironmentVariables`. -/
def pathsToAdd (lib : Lib) (i : Installer) : List String :=
  [ lib.join [lib.join [i.installPath, "jdk-24.0.1"], "bin"],
    lib.join [lib.join [i.installPath, "android-sdk"], "platform-tools"] ]

/-- The first loop of `setEnvironmentVariables`; the error of each call is
only printed. -/
def setEnvVarsLoop (vars : Fin 3 → String × String) : List (Fin 3) → Prog Unit
  | [] => pure ()
  | k :: rest => do
    let _ ← setEnvVarPermanent (vars k).1 (vars k).2
    setEnvVarsLoop vars rest

/-- The second loop of `setEnvironmentVariables`; the error of each call is
only printed. -/
def addPathsLoop : List String → Prog Unit
  | [] => pure ()
  | path :: rest => do
    let _ ← addToPathPermanent path
    addPathsLoop rest

def setEnvironmentVariables (lib : Lib) (i : Installer) : Prog GoError := do
  let order ← rangeMap 3
  setEnvVarsLoop (envVars lib i) order.val
  addPathsLoop (pathsToAdd lib i)
  pure none

/-- The map `checks` of `verify`, entries numbered as written: `cmd[0]` and
`cmd[1:]` of each entry. -/
def checks : Fin 4 → String × List String
  | 0 => ("node", ["--version"])
  | 1 => ("npm", ["--version"])
  | 2 => ("java", ["--version"])
  | 3 => ("adb", ["version"])

/-- The first loop of `verify`; the results are only printed. -/
def verifyChecksLoop : List (Fin 4) → Prog Unit
  | [] => pure ()
  | k :: rest => do
    let _ ← runCommand (checks k).1 (checks k).2
    verifyChecksLoop rest

/-- The second loop of `verify`: probe each path until one answers. -/
def verifyAppiumLoop : List String → Prog Bool
  | [] => pure false
  | path :: rest => do
    let (_, err) ← runCommand path ["--version"]
    if err.isNone then pure true
    else verifyAppiumLoop rest

/-- The third loop of `verify`; the values are only printed. -/
def verifyEnvLoop : List String → Prog Unit
  | [] => pure ()
  | envVar :: rest => do
    let _ ← osGetenv envVar
    verifyEnvLoop rest

def verify : Prog GoError := do
  let order ← rangeMap 4
  verifyChecksLoop order.val
  let username ← osGetenv "USERNAME"
  let _ ← verifyAppiumLoop
    ["appium", "C:\\Users\\" ++ username ++ "\\AppData\\Roaming\\npm\\appium.cmd"]
  verifyEnvLoop ["JAVA_HOME", "ANDROID_HOME", "ANDROID_SDK_ROOT"]
  pure none

def cleanup (i : Installer) : Prog GoError := do
  let _ ← osRemoveAll i.tempPath
  pure none

/-- The slice `steps` of `RunInstallation`. -/
def steps (lib : Lib) (cfg : Config) (i : Installer) : List (String × Prog GoError) :=
  [ ("Setting up directories", setup i),
    ("Installing Node.js", installNodeJS lib cfg i),
    ("Installing Java JDK", installJava lib cfg i),
    ("Installing ADB", checkAndInstallADB lib cfg i),
    ("Installing Appium", installAppium),
    ("Refreshing Environment", refreshEnvironment lib),
    ("Installing UiAutomator2", checkAndInstallUIAutomator2),
    ("Installing Dependencies", installDependencies lib i),
    ("Setting Environment Variables", setEnvironmentVariables lib i),
    ("Verifying Installation", verify),
    ("Cleaning up", cleanup i) ]

/-- The loop of `RunInstallation`: `idx` is the index of the head of the
remaining steps. -/
def runSteps (totalSteps : Nat) : Nat → List (String × Prog GoError) → Prog GoError
  | _, [] => pure none
  | idx, (name, fn) :: rest => do
    printStepStart (idx + 1) totalSteps name
    match ← fn with
    | some err => pure (some (name ++ " failed: " ++ err))
    | none =>
      printStepDone name
      runSteps totalSteps (idx + 1) rest

def RunInstallation (lib : Lib) (cfg : Config) (i : Installer) : Prog GoError :=
  runSteps (steps lib cfg i).length 0 (steps lib cfg i)

/-! ## Observations on runs -/

/-- The steps a trace shows as started: index and name of each progress
line, in order. -/
def stepsInvoked : List Event → List (Nat × String)
  | [] => []
  | ⟨.stepStart idx _ name, _⟩ :: rest => (idx, name) :: stepsInvoked rest
  | _ :: rest => stepsInvoked rest

/-- The calls of a trace, without their answers. -/
def opsOf (tr : List Event) : List Op := tr.map Event.op

/-- Outcome of the step at position `j` of `ss` when the loop of
`RunInstallation` reaches it, the steps before it having returned `nil`.
`idx` is the loop index of the head of `ss`. -/
def stepOutcome {W : Type} (sys : Sys W) (totalSteps : Nat) :
    Nat → List (String × Prog GoError) → W → Nat → Option (Outcome GoError W)
  | _, [], _, _ => none
  | idx, (name, fn) :: rest, w, j =>
    let o := fn.run sys (sys.handle (.stepStart (idx + 1) totalSteps name) w).2
    match j with
    | 0 => some o
    | j + 1 => stepOutcome sys totalSteps (idx + 1) rest (sys.handle (.stepDone name) o.world).2 j

/-- The names of the steps of the plan, in order. -/
def stepNames : List String :=
  [ "Setting up directories", "Installing Node.js", "Installing Java JDK", "Installing ADB",
    "Installing Appium", "Refreshing Environment", "Installing UiAutomator2",
    "Installing Dependencies", "Setting Environment Variables", "Verifying Installation",
    "Cleaning up" ]

/-- Every call a program can make satisfies `P`. -/
def Prog.All {α : Type} (P : Op → Prop) : Prog α → Prop
  | .ret _ => True
  | .call op k => P op ∧ ∀ r, Prog.All P (k r)

/-- A call that is not a progress line of the pipeline loop. -/
def Op.isCollab : Op → Prop
  | .stepStart _ _ _ => False
  | .stepDone _ => False
  | _ => True

/-- A collaborator call other than `os.RemoveAll`. -/
def Op.keepsFiles : Op → Prop
  | .stepStart _ _ _ => False
  | .stepDone _ => False
  | .removeAll _ => False
  | _ => True

/-- A call that is neither `os.RemoveAll` nor the progress line of the
cleanup step. -/
def Op.notCleanup (op : Op) : Prop :=
  (∀ path, op ≠ .removeAll path) ∧ (∀ idx total, op ≠ .stepStart idx total "Cleaning up")

/-- The error a call reported, if any. -/
def Event.err : Event → Option String
  | ⟨.setenv _ _, r⟩ => r
  | ⟨.stat _, .otherErr msg⟩ => some msg
  | ⟨.mkdirAll _ _, r⟩ => r
  | ⟨.removeAll _, r⟩ => r
  | ⟨.lookPath _, r⟩ => r
  | ⟨.cmdRun _, r⟩ => r
  | ⟨.cmdOutput _, r⟩ => r.2
  | ⟨.cmdCombinedOutput _, r⟩ => r.2
  | ⟨.httpGet _, .error e⟩ => some e
  | ⟨.create _, r⟩ => r
  | ⟨.openFile _ _, r⟩ => r
  | ⟨.copy _ _, r⟩ => r
  | ⟨.zipOpenReader _, .error e⟩ => some e
  | ⟨.zipFileOpen _, r⟩ => r
  | _ => none

/-- The error reported by the last call of a trace. -/
def lastErr (tr : List Event) : Option String := tr.getLast?.bind Event.err

/-- A step reports causes under labels: whenever it returns an error, the
error text is one of the labels followed by the error reported by the last
call the step made. -/
def Prog.Labelled (labels : List String) (p : Prog GoError) : Prop :=
  ∀ (W : Type) (sys : Sys W) (w : W) (e : String), (p.run sys w).val = some e →
    ∃ c, lastErr (p.run sys w).trace = some c ∧ ∃ l ∈ labels, e = l ++ c

/-! ## Vocabulary of the driver-install step -/

/-- The primary invocation of `checkAndInstallUIAutomator2`. -/
def primaryDriverInstall : Op :=
  .cmdCombinedOutput ⟨"cmd", ["/C", "npm install -g appium-uiautomator2-driver"], ""⟩

/-- The fallback invocation `<path> driver install uiautomator2`. -/
def appiumDriverInstall (path : String) : Op :=
  .cmdCombinedOutput ⟨"cmd", ["/C", path, "driver", "install", "uiautomator2"], ""⟩

/-- The error text when no fallback path qualifies. -/
def msgAppiumNotFound : String :=
  "appium command not found, please restart terminal and run: appium driver install uiautomator2"

/-- The error text when the fallback invocation fails. -/
def msgDriverFailed : String :=
  "UiAutomator2 installation failed, please restart terminal and run: appium driver install uiautomator2"

/-- The paths a trace shows as probed: the arguments of its `exec.LookPath`
calls, in order (a probe of a path starts with this call). -/
def probedPaths : List Event → List String
  | [] => []
  | ⟨.lookPath file, _⟩ :: rest => file :: probedPaths rest
  | _ :: rest => probedPaths rest

/-- Whether `commandExists(path) || fileExists(path)` holds when it is
evaluated from a world: `exec.LookPath` first and, only when it fails,
`os.Stat` in the world `exec.LookPath` left. -/
def qualifies {W : Type} (sys : Sys W) (w : W) (path : String) : Bool :=
  (sys.handle (.lookPath path) w).1.isNone ||
    !isNotExist (sys.handle (.stat path) (sys.handle (.lookPath path) w).2).1

/-- The world in which the evaluation of
`commandExists(path) || fileExists(path)` from a world ends. -/
def afterProbe {W : Type} (sys : Sys W) (w : W) (path : String) : W :=
  if (sys.handle (.lookPath path) w).1.isNone then (sys.handle (.lookPath path) w).2
  else (sys.handle (.stat path) (sys.handle (.lookPath path) w).2).2

/-- The first path of a list that qualifies, each path being probed in the
world the probes of the paths before it left: its position, the path, and the
world its probe left.  `none` when no path of the list qualifies. -/
def firstQualifying {W : Type} (sys : Sys W) : List String → W → Option (Nat × String × W)
  | [], _ => none
  | path :: rest, w =>
    if qualifies sys w path then some (0, path, afterProbe sys w path)
    else (firstQualifying sys rest (afterProbe sys w path)).map (fun r => (r.1 + 1, r.2))

/-- A probe of a path: `exec.LookPath` or `os.Stat`. -/
def Op.isProbe : Op → Prop
  | .lookPath _ => True
  | .stat _ => True
  | _ => False

/-! ## Assumptions on the file system -/

/-- The destination paths of the non-directory entries of an archive. -/
def filePaths (lib : Lib) (dest : String) (files : List ZipFile) : List String :=
  (files.filter (fun f => !f.isDir)).map (fun f => lib.join [dest, f.name])

/-- What the file system is assumed to do with the temporary directory
`tmp`, whose presence in a world is `dirExists`: a successful `os.MkdirAll`
of it makes it exist, no call other than `os.RemoveAll` removes it, a
successful `os.RemoveAll` of it leaves it absent, and printing the completion
line of a step does not create it. -/
structure TempDirLaws {W : Type} (sys : Sys W) (tmp : String) (dirExists : W → Prop) : Prop where
  created : ∀ w perm, (sys.handle (.mkdirAll tmp perm) w).1 = none →
    dirExists (sys.handle (.mkdirAll tmp perm) w).2
  kept : ∀ op w, (∀ path, op ≠ .removeAll path) → dirExists w → dirExists (sys.handle op w).2
  removed : ∀ w, (sys.handle (.removeAll tmp) w).1 = none →
    ¬ dirExists (sys.handle (.removeAll tmp) w).2
  printed : ∀ name w, dirExists (sys.handle (.stepDone name) w).2 → dirExists w

/-- What the file system is assumed to do with the content of regular
files.  `ident` tells which file a path denotes (two paths that differ as
strings may denote the same file) and `contentAt` gives the content of a file
in a world.  A successful `os.OpenFile` with `O_WRONLY|O_CREATE|O_TRUNC`
leaves the file empty, whether or not it existed; a successful `io.Copy` into
the file just opened leaves the copied bytes as its content; and the calls
`extractZip` makes leave the content of every other file as it is.  Nothing
is assumed about file modes. -/
structure FileLaws {W ι : Type} (sys : Sys W) (ident : String → ι)
    (contentAt : W → ι → Option (List Nat)) : Prop where
  openFile_ok : ∀ w path perm, (sys.handle (.openFile path perm) w).1 = none →
    contentAt (sys.handle (.openFile path perm) w).2 (ident path) = some []
  copy_ok : ∀ w path data, (sys.handle (.copy path data) w).1 = none →
    contentAt w (ident path) = some [] →
    contentAt (sys.handle (.copy path data) w).2 (ident path) = some data
  frame_openFile : ∀ w path perm k, k ≠ ident path →
    contentAt (sys.handle (.openFile path perm) w).2 k = contentAt w k
  frame_copy : ∀ w path data k, k ≠ ident path →
    contentAt (sys.handle (.copy path data) w).2 k = contentAt w k
  frame_mkdirAll : ∀ w path perm k,
    contentAt (sys.handle (.mkdirAll path perm) w).2 k = contentAt w k
  frame_zipFileOpen : ∀ w f k, contentAt (sys.handle (.zipFileOpen f) w).2 k = contentAt w k

/-! ## A reference machine

A small concrete instance of the collaborators, used to exhibit runs: a flat
file store, a search path, an environment, the archives that can be opened,
and `fault`, which makes chosen calls report an error. -/

/-- State of the reference machine. -/
structure Sim where
  /-- existing directories -/
  dirs : List String
  /-- regular files: path, content, mode -/
  files : List (String × List Nat × Nat)
  /-- command names resolvable on the search path -/
  onPath : List String
  /-- environment variables -/
  env : List (String × String)
  /-- archives by path -/
  archives : List (String × List ZipFile)
  /-- permission bits withheld from every file that is created -/
  umask : Nat
  /-- calls that fail, with the error they report -/
  fault : Op → Option String

namespace Sim

/-- Content and mode of the regular file at a path. -/
def fileAt (w : Sim) (path : String) : Option (List Nat × Nat) :=
  (w.files.find? (fun e => e.1 == path)).map Prod.snd

/-- Replace or add the regular file at a path. -/
def putFile (w : Sim) (path : String) (content : List Nat) (mode : Nat) : Sim :=
  { w with files := (path, content, mode) :: w.files.filter (fun e => e.1 != path) }

/-- The mode a file created with the requested permission gets. -/
def createMode (w : Sim) (perm : Nat) : Nat := perm - (perm &&& w.umask)

/-- The content of the regular file at a path. -/
def contentAt (w : Sim) (path : String) : Option (List Nat) :=
  (w.fileAt path).map Prod.fst

/-- What `os.Stat` answers. -/
def statAt (w : Sim) (path : String) : StatResult :=
  match w.fault (.stat path) with
  | some e => .otherErr e
  | none => if path ∈ w.dirs ∨ (w.fileAt path).isSome then .ok else .notExist

/-- An answer that is only an error or `nil`, without effect on the state. -/
def plain (w : Sim) (op : Op) : GoError × Sim := (w.fault op, w)

/-- The handler of the reference machine.  A call named by `fault` reports
that error and changes nothing.  Otherwise: `os.Stat` succeeds on a path that
is a directory or a regular file and reports not-exist on any other;
`os.MkdirAll` fails on a path that is a regular file and otherwise makes the
directory exist; `os.RemoveAll` removes the path; `exec.LookPath` succeeds on
the names of the search path; `os.Create` and `os.OpenFile` with
`O_WRONLY|O_CREATE|O_TRUNC` truncate the file at the path, creating it with
the given mode less the bits of `umask` when it does not exist and keeping
the mode it has when it does; `io.Copy` leaves the copied bytes as the content of the file;
`zip.OpenReader` yields the entries of the archive at the path; a `range`
over a map visits the entries in the order written; commands and downloads
succeed with fixed outputs. -/
def handle : (op : Op) → Sim → Resp op × Sim
  | .tempDir, w => ("C:\\Temp", w)
  | .getenv key, w => (((w.env.find? (fun e => e.1 == key)).map Prod.snd).getD "", w)
  | .setenv key value, w =>
    match w.fault (.setenv key value) with
    | some e => (some e, w)
    | none => (none, { w with env := (key, value) :: w.env.filter (fun e => e.1 != key) })
  | .stat path, w => (w.statAt path, w)
  | .mkdirAll path perm, w =>
    match w.fault (.mkdirAll path perm) with
    | some e => (some e, w)
    | none =>
      if (w.fileAt path).isSome then (some "not a directory", w)
      else (none, { w with dirs := path :: w.dirs.filter (fun d => d != path) })
  | .removeAll path, w =>
    match w.fault (.removeAll path) with
    | some e => (some e, w)
    | none =>
      (none, { w with dirs := w.dirs.filter (fun d => d != path),
                      files := w.files.filter (fun e => e.1 != path) })
  | .lookPath file, w =>
    match w.fault (.lookPath file) with
    | some e => (some e, w)
    | none => if file ∈ w.onPath then (none, w) else (some "executable file not found", w)
  | .cmdRun c, w => w.plain (.cmdRun c)
  | .cmdOutput c, w => (("", w.fault (.cmdOutput c)), w)
  | .cmdCombinedOutput c, w => (("", w.fault (.cmdCombinedOutput c)), w)
  | .httpGet url, w =>
    match w.fault (.httpGet url) with
    | some e => (.error e, w)
    | none => (.ok [1, 2, 3], w)
  | .create path, w =>
    match w.fault (.create path) with
    | some e => (some e, w)
    | none => (none, w.putFile path [] (((w.fileAt path).map Prod.snd).getD (w.createMode 0o666)))
  | .openFile path perm, w =>
    match w.fault (.openFile path perm) with
    | some e => (some e, w)
    | none => (none, w.putFile path [] (((w.fileAt path).map Prod.snd).getD (w.createMode perm)))
  | .rangeMap n, w => (⟨List.finRange n, List.Perm.refl _⟩, w)
  | .copy dst data, w =>
    match w.fault (.copy dst data) with
    | some e => (some e, w)
    | none => (none, w.putFile dst data (((w.fileAt dst).map Prod.snd).getD (w.createMode 0o666)))
  | .zipOpenReader src, w =>
    match w.fault (.zipOpenReader src) with
    | some e => (.error e, w)
    | none =>
      match w.archives.find? (fun a => a.1 == src) with
      | some a => (.ok a.2, w)
      | none => (.error "no such file", w)
  | .zipFileOpen f, w => w.plain (.zipFileOpen f)
  | .stepStart _ _ _, w => ((), w)
  | .stepDone _, w => ((), w)

end Sim

/-- The reference machine as collaborators. -/
def simSys : Sys Sim := ⟨Sim.handle⟩

/-- The components of a path of the reference machine, split at slashes and
backslashes; `cur` holds the characters of the current component, last
first. -/
def simSplit : List Char → List Char → List (List Char)
  | [], cur => [cur.reverse]
  | c :: cs, cur =>
    if c == Char.ofNat 47 || c == Char.ofNat 92 then cur.reverse :: simSplit cs []
    else simSplit cs (c :: cur)

/-- Cleaning of a list of components on the reference machine: empty and `.`
components are dropped and a `..` component cancels the component before it;
`st` holds the components kept so far, last first. -/
def simClean : List (List Char) → List (List Char) → List (List Char)
  | [], st => st.reverse
  | c :: cs, st =>
    if c = [] ∨ c = ".".data then simClean cs st
    else if c = "..".data then
      match st with
      | [] => simClean cs [c]
      | top :: below => if top = "..".data then simClean cs (c :: st) else simClean cs below
    else simClean cs (c :: st)

/-- The `filepath.Join` of the reference machine: the components of the
elements, cleaned, joined with backslashes. -/
def simJoin (elems : List String) : String :=
  String.mk (List.intercalate "\\".data (simClean (elems.map (fun e => simSplit e.data [])).flatten []))

/-- The `filepath.Dir` of the reference machine: what precedes the last
slash or backslash, `.` when there is none. -/
def simDir (path : String) : String :=
  match ((path.data.reverse.dropWhile
      (fun c => c != Char.ofNat 47 && c != Char.ofNat 92)).drop 1).reverse with
  | [] => "."
  | cs => String.mk cs

/-- Library functions of the reference machine. -/
def simLib : Lib where
  join := simJoin
  dir := simDir
  trimSpace := fun s => s
  goos := "windows"

/-- Constants of the reference machine. -/
def simCfg : Config := ⟨"node-url", "java-url", "android-url", "C:\\AppiumSetup"⟩

/-- The installer of the runs on the reference machine. -/
def simInstaller : Installer := ⟨"C:\\AppiumSetup", "C:\\AppiumProject", "C:\\Temp\\AppiumInstaller"⟩

/-- A reference machine on which nothing is installed and nothing fails. -/
def simEmpty : Sim := ⟨[], [], [], [], [], 0, fun _ => none⟩

/-! ## Worlds of the reference machine -/

/-- A reference machine on which Node.js, ADB and Appium are on the search
path and the JDK directory exists. -/
def simInstalled : Sim :=
  { simEmpty with
    dirs := ["C:\\AppiumSetup\\jdk-24.0.1"],
    onPath := ["node", "adb", "appium"] }

/-- A reference machine on which `appium` is on the search path and every
`CombinedOutput` invocation fails. -/
def simDriverFails : Sim :=
  { simEmpty with
    onPath := ["appium"],
    fault := fun op => match op with
      | .cmdCombinedOutput _ => some "exit status 1"
      | _ => none }

/-- A reference machine on which `appium` is on the search path and only the
primary driver invocation fails. -/
def simPrimaryFails : Sim :=
  { simEmpty with
    onPath := ["appium"],
    fault := fun op => match op with
      | .cmdCombinedOutput ⟨_, [_, _], _⟩ => some "exit status 1"
      | _ => none }

/-- A reference machine of user `bob` on which `appium` is not on the search
path but is installed under the user profile, and only the primary driver
invocation fails. -/
def simUserProfile : Sim :=
  { simEmpty with
    files := [("C:\\Users\\bob\\AppData\\Roaming\\npm\\appium.cmd", [], 0o666)],
    env := [("USERNAME", "bob")],
    fault := fun op => match op with
      | .cmdCombinedOutput ⟨_, [_, _], _⟩ => some "exit status 1"
      | _ => none }

/-- A reference machine on which nothing is installed and every download
fails. -/
def simNoNetwork : Sim :=
  { simEmpty with
    fault := fun op => match op with
      | .httpGet _ => some "connection refused"
      | _ => none }

/-- An installer whose project path is not a valid file name. -/
def simBadNameInstaller : Installer :=
  ⟨"C:\\AppiumSetup", "C:\\Appium?Project", "C:\\Temp\\AppiumInstaller"⟩

/-- A reference machine on which nothing exists; `os.Stat` of the invalid
project path and of what lies under it fails with the invalid-name error (for
which `os.IsNotExist` does not hold), and a command started in that directory
fails. -/
def simBadName : Sim :=
  { simEmpty with
    fault := fun op => match op with
      | .stat path =>
        if path = "C:\\Appium?Project" ∨ path = "C:\\Appium?Project\\package.json" then
          some "The filename, directory name, or volume label syntax is incorrect."
        else none
      | .cmdRun c =>
        if c.dir = "C:\\Appium?Project" then
          some "chdir C:\\Appium?Project: The filename, directory name, or volume label syntax is incorrect."
        else none
      | _ => none }

/-- A reference machine on which the install root cannot be created. -/
def simSetupFails : Sim :=
  { simEmpty with
    fault := fun op => match op with
      | .mkdirAll "C:\\AppiumSetup" _ => some "Access is denied."
      | _ => none }

/-- A reference machine with the four tools present on which removing a
directory fails. -/
def simCleanupFails : Sim :=
  { simInstalled with
    fault := fun op => match op with
      | .removeAll _ => some "The process cannot access the file because it is being used by another process."
      | _ => none }

/-- A reference machine with an archive holding a nested directory and one
file in it. -/
def simArchive : Sim :=
  { simEmpty with
    archives := [("a.zip", [⟨"d/", true, 0o755, []⟩, ⟨"d/f.txt", false, 0o644, [104, 105]⟩])] }

/-- A reference machine with an archive in which two entries have the same
name. -/
def simArchiveDup : Sim :=
  { simEmpty with
    archives := [("a.zip", [⟨"f.txt", false, 0o644, [1]⟩, ⟨"f.txt", false, 0o644, [2]⟩])] }

/-- A reference machine that withholds the write bits of group and others
from created files (umask 022), with an archive holding one file of mode
0666. -/
def simArchiveUmask : Sim :=
  { simEmpty with
    umask := 0o022,
    archives := [("a.zip", [⟨"f.txt", false, 0o666, [1]⟩])] }

/-- A reference machine with an archive whose entry name climbs out of the
destination. -/
def simArchiveSlip : Sim :=
  { simEmpty with
    archives := [("a.zip", [⟨"../evil.txt", false, 0o644, [1]⟩])] }

/-! ## Running programs: basic facts -/

section RunLemmas

variable {W α β : Type} (sys : Sys W)

@[simp] theorem run_ret (a : α) (w : W) : (Prog.ret a).run sys w = ⟨a, w, []⟩ := rfl

@[simp] theorem run_pure (a : α) (w : W) : (pure a : Prog α).run sys w = ⟨a, w, []⟩ := rfl

@[simp] theorem run_call (op : Op) (k : Resp op → Prog α) (w : W) :
    (Prog.call op k).run sys w =
      ⟨((k (sys.handle op w).1).run sys (sys.handle op w).2).val,
       ((k (sys.handle op w).1).run sys (sys.handle op w).2).world,
       ⟨op, (sys.handle op w).1⟩ :: ((k (sys.handle op w).1).run sys (sys.handle op w).2).trace⟩ :=
  rfl

theorem run_bind_aux (p : Prog α) (f : α → Prog β) (w : W) :
    (Prog.bind p f).run sys w =
      ⟨((f (p.run sys w).val).run sys (p.run sys w).world).val,
       ((f (p.run sys w).val).run sys (p.run sys w).world).world,
       (p.run sys w).trace ++ ((f (p.run sys w).val).run sys (p.run sys w).world).trace⟩ := by
  induction p generalizing w with
  | ret a => simp [Prog.bind]
  | call op k ih => simp [Prog.bind, ih]

@[simp] theorem run_bind (p : Prog α) (f : α → Prog β) (w : W) :
    (p >>= f).run sys w =
      ⟨((f (p.run sys w).val).run sys (p.run sys w).world).val,
       ((f (p.run sys w).val).run sys (p.run sys w).world).world,
       (p.run sys w).trace ++ ((f (p.run sys w).val).run sys (p.run sys w).world).trace⟩ :=
  run_bind_aux sys p f w

end RunLemmas

/-! ## Which calls a program can make -/

section AllLemmas

variable {W α β : Type}

theorem Prog.All.bind {P : Op → Prop} {p : Prog α} {f : α → Prog β}
    (hp : p.All P) (hf : ∀ a, (f a).All P) : (p >>= f).All P := by
  show (Prog.bind p f).All P
  induction p with
  | ret a => exact hf a
  | call op k ih => exact ⟨hp.1, fun r => ih r (hp.2 r)⟩

theorem Prog.All.mono {P Q : Op → Prop} {p : Prog α} (h : ∀ op, P op → Q op)
    (hp : p.All P) : p.All Q := by
  induction p with
  | ret a => trivial
  | call op k ih => exact ⟨h op hp.1, fun r => ih r (hp.2 r)⟩

theorem Prog.All.trace {P : Op → Prop} {p : Prog α} (hp : p.All P) (sys : Sys W) (w : W) :
    ∀ ev ∈ (p.run sys w).trace, P ev.op := by
  induction p generalizing w with
  | ret a => simp
  | call op k ih =>
    intro ev hev
    simp only [run_call, List.mem_cons] at hev
    rcases hev with rfl | hev
    · exact hp.1
    · exact ih _ (hp.2 _) _ ev hev

theorem stepsInvoked_append (l₁ l₂ : List Event) :
    stepsInvoked (l₁ ++ l₂) = stepsInvoked l₁ ++ stepsInvoked l₂ := by
  induction l₁ with
  | nil => rfl
  | cons ev rest ih =>
    obtain ⟨op, r⟩ := ev
    cases op <;> simp [stepsInvoked, ih]

theorem stepsInvoked_eq_nil {l : List Event} (h : ∀ ev ∈ l, ev.op.isCollab) :
    stepsInvoked l = [] := by
  induction l with
  | nil => rfl
  | cons ev rest ih =>
    have h1 := h ev (List.mem_cons_self _ _)
    have h2 := ih (fun e he => h e (List.mem_cons_of_mem _ he))
    obtain ⟨op, r⟩ := ev
    cases op <;> simp_all [stepsInvoked, Op.isCollab]

theorem bind_def (p : Prog α) (f : α → Prog β) : (p >>= f) = Prog.bind p f := rfl

theorem pure_def (a : α) : (pure a : Prog α) = Prog.ret a := rfl

theorem All_ite (P : Op → Prop) (c : Prop) [Decidable c] (a b : Prog α) :
    (if c then a else b).All P ↔ (c → a.All P) ∧ (¬c → b.All P) := by
  split <;> simp_all

theorem except_forall {ε γ : Type} {p : Except ε γ → Prop} :
    (∀ r, p r) ↔ (∀ e, p (.error e)) ∧ (∀ a, p (.ok a)) :=
  ⟨fun h => ⟨fun _ => h _, fun _ => h _⟩, fun h r => by cases r; exact h.1 _; exact h.2 _⟩

theorem keepsFiles_isCollab (op : Op) (h : op.keepsFiles) : op.isCollab := by
  cases op <;> simp_all [Op.keepsFiles, Op.isCollab]

theorem downloadFile_all (url path : String) : (downloadFile url path).All Op.keepsFiles := by
  simp [downloadFile, httpGet, osCreate, ioCopy, bind_def, pure_def, Prog.bind, Prog.All,
    Op.keepsFiles, Resp, except_forall, Option.forall]

theorem extractFiles_all (lib : Lib) (dest : String) (files : List ZipFile) :
    (extractFiles lib dest files).All Op.keepsFiles := by
  induction files with
  | nil => simp [extractFiles, pure_def, Prog.All]
  | cons f rest ih =>
    simp [extractFiles, osMkdirAll, zipFileOpen, osOpenFile, ioCopy, bind_def, pure_def,
      Prog.bind, Prog.All, Op.keepsFiles, Resp, Option.forall, All_ite, ih]

theorem extractZip_all (lib : Lib) (src dest : String) :
    (extractZip lib src dest).All Op.keepsFiles := by
  simp [extractZip, zipOpenReader, bind_def, pure_def, Prog.bind, Prog.All, Op.keepsFiles, Resp,
    except_forall, extractFiles_all]

theorem setupDirs_all (dirs : List String) : (setupDirs dirs).All Op.keepsFiles := by
  induction dirs with
  | nil => simp [setupDirs, pure_def, Prog.All]
  | cons d rest ih =>
    simp [setupDirs, osMkdirAll, bind_def, pure_def, Prog.bind, Prog.All, Op.keepsFiles, Resp,
      Option.forall, ih]

theorem setup_all (i : Installer) : (setup i).All Op.keepsFiles := setupDirs_all _

theorem installNodeJS_all (lib : Lib) (cfg : Config) (i : Installer) :
    (installNodeJS lib cfg i).All Op.keepsFiles := by
  simp [installNodeJS, commandExists, runCommand, runCommandWait, cmdRun, cmdOutput,
    execLookPath, downloadFile, httpGet, osCreate, ioCopy, bind_def, pure_def, Prog.bind,
    Prog.All, Op.keepsFiles, except_forall, Option.forall, All_ite, Resp]

theorem installJava_all (lib : Lib) (cfg : Config) (i : Installer) :
    (installJava lib cfg i).All Op.keepsFiles := by
  unfold installJava
  refine Prog.All.bind (by simp [osStat, Prog.All, Op.keepsFiles]) (fun st => ?_)
  split
  · refine Prog.All.bind (downloadFile_all _ _) (fun r => ?_)
    cases r with
    | some e => simp [pure_def, Prog.All]
    | none =>
      refine Prog.All.bind (extractZip_all _ _ _) (fun r => ?_)
      cases r <;> simp [pure_def, Prog.All]
  · simp [pure_def, Prog.All]

theorem installADB_all (lib : Lib) (cfg : Config) (i : Installer) :
    (installADB lib cfg i).All Op.keepsFiles := by
  unfold installADB
  refine Prog.All.bind (downloadFile_all _ _) (fun r => ?_)
  cases r with
  | some e => simp [pure_def, Prog.All]
  | none =>
    refine Prog.All.bind (by simp [osMkdirAll, Prog.All, Op.keepsFiles]) (fun r => ?_)
    cases r with
    | some e => simp [pure_def, Prog.All]
    | none =>
      refine Prog.All.bind (extractZip_all _ _ _) (fun r => ?_)
      cases r <;> simp [pure_def, Prog.All]

theorem checkAndInstallADB_all (lib : Lib) (cfg : Config) (i : Installer) :
    (checkAndInstallADB lib cfg i).All Op.keepsFiles := by
  unfold checkAndInstallADB
  refine Prog.All.bind (by simp [commandExists, execLookPath, bind_def, pure_def, Prog.bind,
    Prog.All, Op.keepsFiles]) (fun b => ?_)
  split
  · refine Prog.All.bind (by simp [runCommand, cmdOutput, Prog.All, Op.keepsFiles]) (fun r => ?_)
    obtain ⟨out, err⟩ := r
    dsimp only
    split
    · simp [pure_def, Prog.All]
    · exact installADB_all _ _ _
  · exact installADB_all _ _ _

theorem installAppium_all : installAppium.All Op.keepsFiles := by
  simp [installAppium, npmInstallAppium, commandExists, runCommand, cmdOutput,
    cmdCombinedOutput, execLookPath, bind_def, pure_def, Prog.bind, Prog.All, Op.keepsFiles,
    Option.forall, All_ite, Resp]

theorem refreshEnvironment_all (lib : Lib) : (refreshEnvironment lib).All Op.keepsFiles := by
  simp [refreshEnvironment, refreshEnvironmentCmd, runCommand, cmdRun, cmdOutput, osSetenv,
    osGetenv, bind_def, pure_def, Prog.bind, Prog.All, Op.keepsFiles, Option.forall, All_ite,
    Resp]

theorem findAppiumCmd_all (paths : List String) : (findAppiumCmd paths).All Op.keepsFiles := by
  induction paths with
  | nil => simp [findAppiumCmd, pure_def, Prog.All]
  | cons p rest ih =>
    simp [findAppiumCmd, commandExists, fileExists, execLookPath, osStat, bind_def, pure_def,
      Prog.bind, Prog.All, Op.keepsFiles, Option.forall, All_ite, Resp, ih]

theorem checkAndInstallUIAutomator2_all : checkAndInstallUIAutomator2.All Op.keepsFiles := by
  unfold checkAndInstallUIAutomator2
  refine Prog.All.bind (by simp [cmdCombinedOutput, Prog.All, Op.keepsFiles]) (fun r => ?_)
  obtain ⟨out, err⟩ := r
  dsimp only
  split
  · simp [pure_def, Prog.All]
  · refine Prog.All.bind (by simp [osGetenv, Prog.All, Op.keepsFiles]) (fun u => ?_)
    refine Prog.All.bind (findAppiumCmd_all _) (fun c => ?_)
    split
    · simp [pure_def, Prog.All]
    · simp [cmdCombinedOutput, bind_def, pure_def, Prog.bind, Prog.All, Op.keepsFiles, All_ite,
        Resp]

theorem installDependencies_all (lib : Lib) (i : Installer) :
    (installDependencies lib i).All Op.keepsFiles := by
  simp [installDependencies, osStat, cmdRun, bind_def, pure_def, Prog.bind, Prog.All,
    Op.keepsFiles, Option.forall, All_ite, Resp]

theorem setEnvVarsLoop_all (vars : Fin 3 → String × String) (order : List (Fin 3)) :
    (setEnvVarsLoop vars order).All Op.keepsFiles := by
  induction order with
  | nil => simp [setEnvVarsLoop, pure_def, Prog.All]
  | cons k rest ih =>
    simp [setEnvVarsLoop, setEnvVarPermanent, runCommandWait, cmdRun, bind_def, Prog.bind,
      Prog.All, Op.keepsFiles, ih]

theorem addPathsLoop_all (paths : List String) : (addPathsLoop paths).All Op.keepsFiles := by
  induction paths with
  | nil => simp [addPathsLoop, pure_def, Prog.All]
  | cons k rest ih =>
    simp [addPathsLoop, addToPathPermanent, runCommandWait, cmdRun, bind_def, Prog.bind,
      Prog.All, Op.keepsFiles, ih]

theorem setEnvironmentVariables_all (lib : Lib) (i : Installer) :
    (setEnvironmentVariables lib i).All Op.keepsFiles := by
  unfold setEnvironmentVariables
  refine Prog.All.bind (by simp [rangeMap, Prog.All, Op.keepsFiles]) (fun order => ?_)
  refine Prog.All.bind (setEnvVarsLoop_all _ _) (fun _ => ?_)
  refine Prog.All.bind (addPathsLoop_all _) (fun _ => ?_)
  simp [pure_def, Prog.All]

theorem verifyChecksLoop_all (order : List (Fin 4)) :
    (verifyChecksLoop order).All Op.keepsFiles := by
  induction order with
  | nil => simp [verifyChecksLoop, pure_def, Prog.All]
  | cons k rest ih =>
    simp [verifyChecksLoop, runCommand, cmdOutput, bind_def, Prog.bind, Prog.All,
      Op.keepsFiles, ih]

theorem verifyAppiumLoop_all (paths : List String) :
    (verifyAppiumLoop paths).All Op.keepsFiles := by
  induction paths with
  | nil => simp [verifyAppiumLoop, pure_def, Prog.All]
  | cons k rest ih =>
    simp [verifyAppiumLoop, runCommand, cmdOutput, bind_def, pure_def, Prog.bind, Prog.All,
      Op.keepsFiles, All_ite, ih]

theorem verifyEnvLoop_all (vars : List String) : (verifyEnvLoop vars).All Op.keepsFiles := by
  induction vars with
  | nil => simp [verifyEnvLoop, pure_def, Prog.All]
  | cons k rest ih =>
    simp [verifyEnvLoop, osGetenv, bind_def, Prog.bind, Prog.All, Op.keepsFiles, ih]

theorem verify_all : verify.All Op.keepsFiles := by
  unfold verify
  refine Prog.All.bind (by simp [rangeMap, Prog.All, Op.keepsFiles]) (fun order => ?_)
  refine Prog.All.bind (verifyChecksLoop_all _) (fun _ => ?_)
  refine Prog.All.bind (by simp [osGetenv, Prog.All, Op.keepsFiles]) (fun u => ?_)
  refine Prog.All.bind (verifyAppiumLoop_all _) (fun _ => ?_)
  refine Prog.All.bind (verifyEnvLoop_all _) (fun _ => ?_)
  simp [pure_def, Prog.All]

theorem cleanup_all (i : Installer) : (cleanup i).All Op.isCollab := by
  simp [cleanup, osRemoveAll, bind_def, pure_def, Prog.bind, Prog.All, Op.isCollab]

/-- The ten steps before cleanup. -/
theorem steps_eq (lib : Lib) (cfg : Config) (i : Installer) :
    steps lib cfg i = (steps lib cfg i).take 10 ++ [("Cleaning up", cleanup i)] := rfl

theorem steps_take_all (lib : Lib) (cfg : Config) (i : Installer) :
    ∀ s ∈ (steps lib cfg i).take 10, s.2.All Op.keepsFiles := by
  intro s hs
  simp only [steps, List.take_succ_cons, List.take_zero, List.mem_cons, List.mem_singleton,
    List.not_mem_nil, or_false] at hs
  rcases hs with rfl | rfl | rfl | rfl | rfl | rfl | rfl | rfl | rfl | rfl
  · exact setup_all _
  · exact installNodeJS_all _ _ _
  · exact installJava_all _ _ _
  · exact checkAndInstallADB_all _ _ _
  · exact installAppium_all
  · exact refreshEnvironment_all _
  · exact checkAndInstallUIAutomator2_all
  · exact installDependencies_all _ _
  · exact setEnvironmentVariables_all _ _
  · exact verify_all

theorem steps_all (lib : Lib) (cfg : Config) (i : Installer) :
    ∀ s ∈ steps lib cfg i, s.2.All Op.isCollab := by
  intro s hs
  rw [steps_eq, List.mem_append] at hs
  rcases hs with hs | hs
  · exact (steps_take_all lib cfg i s hs).mono keepsFiles_isCollab
  · simp only [List.mem_singleton] at hs
    subst hs
    exact cleanup_all _

theorem steps_names (lib : Lib) (cfg : Config) (i : Installer) :
    (steps lib cfg i).map Prod.fst = stepNames := rfl

end AllLemmas

/-! ## The pipeline loop -/

section Pipeline

variable {W : Type} (sys : Sys W)

theorem runSteps_cons_run (totalSteps idx : Nat) (name : String) (fn : Prog GoError)
    (rest : List (String × Prog GoError)) (w : W) :
    (runSteps totalSteps idx ((name, fn) :: rest)).run sys w =
      (match (fn.run sys (sys.handle (.stepStart (idx + 1) totalSteps name) w).2).val with
       | some err =>
         ⟨some (name ++ " failed: " ++ err),
          (fn.run sys (sys.handle (.stepStart (idx + 1) totalSteps name) w).2).world,
          ⟨.stepStart (idx + 1) totalSteps name, (sys.handle (.stepStart (idx + 1) totalSteps name) w).1⟩ ::
            (fn.run sys (sys.handle (.stepStart (idx + 1) totalSteps name) w).2).trace⟩
       | none =>
         let w1 := (fn.run sys (sys.handle (.stepStart (idx + 1) totalSteps name) w).2).world
         let o := (runSteps totalSteps (idx + 1) rest).run sys (sys.handle (.stepDone name) w1).2
         ⟨o.val, o.world,
          ⟨.stepStart (idx + 1) totalSteps name, (sys.handle (.stepStart (idx + 1) totalSteps name) w).1⟩ ::
            ((fn.run sys (sys.handle (.stepStart (idx + 1) totalSteps name) w).2).trace ++
              ⟨.stepDone name, (sys.handle (.stepDone name) w1).1⟩ :: o.trace)⟩) := by
  simp only [runSteps, printStepStart, printStepDone, run_bind, run_call, run_ret]
  cases h : (fn.run sys (sys.handle (.stepStart (idx + 1) totalSteps name) w).2).val <;> simp

theorem runSteps_fail_fast (totalSteps : Nat) (ss : List (String × Prog GoError)) :
    ∀ (idx : Nat) (w : W) (k : Nat) (c : String),
      (∀ s ∈ ss, s.2.All Op.isCollab) →
      (∀ j < k, (stepOutcome sys totalSteps idx ss w j).map Outcome.val = some none) →
      (stepOutcome sys totalSteps idx ss w k).map Outcome.val = some (some c) →
      ∃ name, (ss.map Prod.fst)[k]? = some name ∧
        ((runSteps totalSteps idx ss).run sys w).val = some (name ++ " failed: " ++ c) ∧
        stepsInvoked ((runSteps totalSteps idx ss).run sys w).trace =
          ((ss.map Prod.fst).take (k + 1)).enumFrom (idx + 1) ∧
        ∃ ok, stepOutcome sys totalSteps idx ss w k = some ok ∧
          ((runSteps totalSteps idx ss).run sys w).world = ok.world ∧
          ok.trace <:+ ((runSteps totalSteps idx ss).run sys w).trace := by
  induction ss with
  | nil => intro idx w k c _ _ hfail; simp [stepOutcome] at hfail
  | cons s rest ih =>
    obtain ⟨name, fn⟩ := s
    intro idx w k c hclean hprev hfail
    have hfn : ∀ ev ∈ (fn.run sys (sys.handle (.stepStart (idx + 1) totalSteps name) w).2).trace,
        ev.op.isCollab := (hclean (name, fn) (List.mem_cons_self _ _)).trace sys _
    have hnil := stepsInvoked_eq_nil hfn
    cases k with
    | zero =>
      simp only [stepOutcome, Option.map_some', Option.some.injEq] at hfail
      refine ⟨name, by simp, ?_⟩
      rw [runSteps_cons_run, hfail]
      simp [stepsInvoked, hnil, stepOutcome]
    | succ k =>
      have h0 := hprev 0 (Nat.succ_pos k)
      simp only [stepOutcome, Option.map_some', Option.some.injEq] at h0
      have hprev' : ∀ j < k, (stepOutcome sys totalSteps (idx + 1) rest
          (sys.handle (.stepDone name)
            (fn.run sys (sys.handle (.stepStart (idx + 1) totalSteps name) w).2).world).2 j).map
              Outcome.val = some none := by
        intro j hj
        have := hprev (j + 1) (Nat.succ_lt_succ hj)
        simpa [stepOutcome] using this
      have hfail' : (stepOutcome sys totalSteps (idx + 1) rest
          (sys.handle (.stepDone name)
            (fn.run sys (sys.handle (.stepStart (idx + 1) totalSteps name) w).2).world).2 k).map
              Outcome.val = some (some c) := by
        simpa [stepOutcome] using hfail
      obtain ⟨nm, hnm, hval, htr, ok, hok, hw, hsuf⟩ := ih (idx + 1) _ k c
        (fun s hs => hclean s (List.mem_cons_of_mem _ hs)) hprev' hfail'
      refine ⟨nm, by simpa using hnm, ?_⟩
      rw [runSteps_cons_run, h0]
      simp only [stepOutcome]
      refine ⟨hval, ?_, ok, hok, hw, ?_⟩
      · simp [stepsInvoked, stepsInvoked_append, hnil, htr, List.enumFrom_cons]
      · exact (hsuf.trans (List.suffix_cons _ _)).trans
          ((List.suffix_append _ _).trans (List.suffix_cons _ _))

end Pipeline

/-! ## The driver-install step -/

section Driver
variable {W : Type} (sys : Sys W)

theorem probedPaths_append (l₁ l₂ : List Event) :
    probedPaths (l₁ ++ l₂) = probedPaths l₁ ++ probedPaths l₂ := by
  induction l₁ with
  | nil => rfl
  | cons ev rest ih =>
    obtain ⟨op, r⟩ := ev
    cases op <;> simp [probedPaths, ih]

theorem findAppiumCmd_run_cons (p : String) (rest : List String) (w : W) :
    (findAppiumCmd (p :: rest)).run sys w =
      if (sys.handle (.lookPath p) w).1 = none then
        ⟨p, (sys.handle (.lookPath p) w).2, [⟨.lookPath p, (sys.handle (.lookPath p) w).1⟩]⟩
      else if (sys.handle (.stat p) (sys.handle (.lookPath p) w).2).1 = .notExist then
        ⟨((findAppiumCmd rest).run sys
            (sys.handle (.stat p) (sys.handle (.lookPath p) w).2).2).val,
         ((findAppiumCmd rest).run sys
            (sys.handle (.stat p) (sys.handle (.lookPath p) w).2).2).world,
         ⟨.lookPath p, (sys.handle (.lookPath p) w).1⟩ ::
           ⟨.stat p, (sys.handle (.stat p) (sys.handle (.lookPath p) w).2).1⟩ ::
           ((findAppiumCmd rest).run sys
              (sys.handle (.stat p) (sys.handle (.lookPath p) w).2).2).trace⟩
      else
        ⟨p, (sys.handle (.stat p) (sys.handle (.lookPath p) w).2).2,
         [⟨.lookPath p, (sys.handle (.lookPath p) w).1⟩,
          ⟨.stat p, (sys.handle (.stat p) (sys.handle (.lookPath p) w).2).1⟩]⟩ := by
  simp only [findAppiumCmd, commandExists, fileExists, execLookPath, osStat, run_bind, run_call,
    run_ret, run_pure]
  cases h1 : (sys.handle (.lookPath p) w).1 with
  | none => simp
  | some e =>
    cases h2 : (sys.handle (.stat p) (sys.handle (.lookPath p) w).2).1 <;>
      simp [isNotExist, h2]

theorem findAppiumCmd_probes (paths : List String) :
    ∀ w : W,
      (((findAppiumCmd paths).run sys w).val = "" ∧
        probedPaths ((findAppiumCmd paths).run sys w).trace = paths) ∨
      (∃ n, paths[n]? = some ((findAppiumCmd paths).run sys w).val ∧
        probedPaths ((findAppiumCmd paths).run sys w).trace = paths.take (n + 1)) := by
  induction paths with
  | nil => intro w; left; simp [findAppiumCmd, probedPaths]
  | cons p rest ih =>
    intro w
    rw [findAppiumCmd_run_cons]
    split
    · right; exact ⟨0, by simp [probedPaths]⟩
    · split
      · rcases ih (sys.handle (.stat p) (sys.handle (.lookPath p) w).2).2 with ⟨h1, h2⟩ | ⟨n, h1, h2⟩
        · left; simp [probedPaths, h1, h2]
        · right; exact ⟨n + 1, by simp [probedPaths, h1, h2]⟩
      · right; exact ⟨0, by simp [probedPaths]⟩

theorem findAppiumCmd_spec (paths : List String) :
    ∀ w : W,
      (firstQualifying sys paths w = none →
        ((findAppiumCmd paths).run sys w).val = "" ∧
        probedPaths ((findAppiumCmd paths).run sys w).trace = paths) ∧
      (∀ n p w', firstQualifying sys paths w = some (n, p, w') →
        ((findAppiumCmd paths).run sys w).val = p ∧
        ((findAppiumCmd paths).run sys w).world = w' ∧
        paths[n]? = some p ∧
        probedPaths ((findAppiumCmd paths).run sys w).trace = paths.take (n + 1)) := by
  induction paths with
  | nil =>
    intro w
    exact ⟨fun _ => by simp [findAppiumCmd, probedPaths], fun n p w' h => by
      simp [firstQualifying] at h⟩
  | cons q rest ih =>
    intro w
    rw [findAppiumCmd_run_cons]
    by_cases h1 : (sys.handle (.lookPath q) w).1 = none
    · have hq : qualifies sys w q = true := by simp [qualifies, h1]
      have ha : afterProbe sys w q = (sys.handle (.lookPath q) w).2 := by simp [afterProbe, h1]
      simp only [firstQualifying, hq, if_true, h1, ha]
      refine ⟨fun h => by simp at h, fun n p w' h => ?_⟩
      simp only [Option.some.injEq, Prod.mk.injEq] at h
      obtain ⟨rfl, rfl, rfl⟩ := h
      simp [probedPaths]
    · have hn : (sys.handle (.lookPath q) w).1.isNone = false := by
        cases hh : (sys.handle (.lookPath q) w).1 <;> simp_all
      have ha : afterProbe sys w q =
          (sys.handle (.stat q) (sys.handle (.lookPath q) w).2).2 := by simp [afterProbe, hn]
      by_cases h2 : (sys.handle (.stat q) (sys.handle (.lookPath q) w).2).1 = .notExist
      · have hq : qualifies sys w q = false := by simp [qualifies, hn, h2, isNotExist]
        simp only [firstQualifying, hq, Bool.false_eq_true, if_false, h1, h2, if_true, ha]
        obtain ⟨ih1, ih2⟩ := ih (sys.handle (.stat q) (sys.handle (.lookPath q) w).2).2
        refine ⟨fun h => ?_, fun n p w' h => ?_⟩
        · have h' := ih1 (by simpa using h)
          simp [probedPaths, h'.1, h'.2]
        · cases hf : firstQualifying sys rest
              (sys.handle (.stat q) (sys.handle (.lookPath q) w).2).2 with
          | none => rw [hf] at h; simp at h
          | some r =>
            obtain ⟨m, p', w''⟩ := r
            rw [hf] at h
            simp only [Option.map_some', Option.some.injEq, Prod.mk.injEq] at h
            obtain ⟨rfl, rfl, rfl⟩ := h
            obtain ⟨hv, hw, hget, hpr⟩ := ih2 m p' w'' hf
            simp [probedPaths, hv, hw, hget, hpr]
      · have hne : isNotExist (sys.handle (.stat q) (sys.handle (.lookPath q) w).2).1 = false := by
          cases hh : (sys.handle (.stat q) (sys.handle (.lookPath q) w).2).1 <;>
            simp_all [isNotExist]
        have hq : qualifies sys w q = true := by simp [qualifies, hn, hne]
        simp only [firstQualifying, hq, if_true, h1, h2, if_false, ha]
        refine ⟨fun h => by simp at h, fun n p w' h => ?_⟩
        simp only [Option.some.injEq, Prod.mk.injEq] at h
        obtain ⟨rfl, rfl, rfl⟩ := h
        simp [probedPaths]

theorem firstQualifying_mem (paths : List String) :
    ∀ (w : W) (n : Nat) (p : String) (w' : W),
      firstQualifying sys paths w = some (n, p, w') → p ∈ paths := by
  intro w n p w' h
  exact List.getElem?_mem ((findAppiumCmd_spec sys paths w).2 n p w' h).2.2.1

theorem findAppiumCmd_isProbe (paths : List String) : (findAppiumCmd paths).All Op.isProbe := by
  induction paths with
  | nil => simp [findAppiumCmd, pure_def, Prog.All]
  | cons p rest ih =>
    simp [findAppiumCmd, commandExists, fileExists, execLookPath, osStat, bind_def, pure_def,
      Prog.bind, Prog.All, Op.isProbe, Option.forall, All_ite, Resp, ih]

theorem appiumPaths_ne_empty (u p : String) (hp : p ∈ appiumPaths u) : p ≠ "" := by
  intro h
  subst h
  simp only [appiumPaths, List.mem_cons, List.mem_singleton, List.not_mem_nil, or_false] at hp
  rcases hp with h | h | h
  · exact absurd h (by decide)
  · have := congrArg String.length h
    simp only [String.length_append] at this
    have h9 : "C:\\Users\\".length = 9 := by decide
    have h0 : "".length = 0 := by decide
    omega
  · exact absurd h (by decide)

end Driver

section DriverRun
variable {W : Type} (sys : Sys W)

theorem checkAndInstallUIAutomator2_run (w : W) :
    checkAndInstallUIAutomator2.run sys w =
      (let r1 := sys.handle primaryDriverInstall w
       let u := sys.handle (.getenv "USERNAME") r1.2
       let f := (findAppiumCmd (appiumPaths u.1)).run sys u.2
       let r2 := sys.handle (appiumDriverInstall f.val) f.world
       if r1.1.2 = none then ⟨none, r1.2, [⟨primaryDriverInstall, r1.1⟩]⟩
       else if f.val = "" then
         ⟨some msgAppiumNotFound, f.world,
          ⟨primaryDriverInstall, r1.1⟩ :: ⟨.getenv "USERNAME", u.1⟩ :: f.trace⟩
       else
         ⟨if r2.1.2 = none then none else some msgDriverFailed, r2.2,
          ⟨primaryDriverInstall, r1.1⟩ :: ⟨.getenv "USERNAME", u.1⟩ ::
            (f.trace ++ [⟨appiumDriverInstall f.val, r2.1⟩])⟩) := by
  simp only [checkAndInstallUIAutomator2, cmdCombinedOutput, osGetenv, run_bind, run_call,
    run_ret, run_pure, primaryDriverInstall, appiumDriverInstall, msgAppiumNotFound,
    msgDriverFailed]
  by_cases h1 : (sys.handle (.cmdCombinedOutput
      ⟨"cmd", ["/C", "npm install -g appium-uiautomator2-driver"], ""⟩) w).1.2 = none
  · simp [h1]
  · have h1' : (sys.handle (.cmdCombinedOutput
        ⟨"cmd", ["/C", "npm install -g appium-uiautomator2-driver"], ""⟩) w).1.2.isNone = false := by
      cases hx : (sys.handle (.cmdCombinedOutput
        ⟨"cmd", ["/C", "npm install -g appium-uiautomator2-driver"], ""⟩) w).1.2 with
      | none => exact absurd hx h1
      | some e => rfl
    simp only [h1, h1', Bool.false_eq_true, if_false, run_bind, run_call, run_ret, run_pure,
      beq_iff_eq]
    split_ifs with h2 h3 <;> simp_all

end DriverRun

/-! ## Environment variables, verification, cleanup -/

section BestEffort

variable {W : Type} (sys : Sys W)

theorem setEnvVarsLoop_ops (vars : Fin 3 → String × String) (order : List (Fin 3)) :
    ∀ w : W, opsOf ((setEnvVarsLoop vars order).run sys w).trace =
      order.map (fun k => Op.cmdRun ⟨"setx", [(vars k).1, (vars k).2], ""⟩) := by
  induction order with
  | nil => intro w; simp [setEnvVarsLoop, opsOf]
  | cons k rest ih =>
    intro w
    have := ih (sys.handle (Op.cmdRun ⟨"setx", [(vars k).1, (vars k).2], ""⟩) w).2
    simp only [opsOf] at this
    simp [setEnvVarsLoop, setEnvVarPermanent, runCommandWait, cmdRun, opsOf, this]

theorem addPathsLoop_ops (paths : List String) :
    ∀ w : W, opsOf ((addPathsLoop paths).run sys w).trace =
      paths.map (fun p => Op.cmdRun ⟨"setx", ["PATH", "%PATH%;" ++ p], ""⟩) := by
  induction paths with
  | nil => intro w; simp [addPathsLoop, opsOf]
  | cons p rest ih =>
    intro w
    have := ih (sys.handle (Op.cmdRun ⟨"setx", ["PATH", "%PATH%;" ++ p], ""⟩) w).2
    simp only [opsOf] at this
    simp [addPathsLoop, addToPathPermanent, runCommandWait, cmdRun, opsOf, this]

theorem setEnvironmentVariables_val (lib : Lib) (i : Installer) (w : W) :
    ((setEnvironmentVariables lib i).run sys w).val = none := by
  simp [setEnvironmentVariables]

theorem refreshEnvironment_val (lib : Lib) (w : W) :
    ((refreshEnvironment lib).run sys w).val = none := by
  simp only [refreshEnvironment, refreshEnvironmentCmd, runCommand, cmdRun, cmdOutput, osSetenv,
    osGetenv, run_bind, run_call, run_ret, run_pure]
  split_ifs <;> simp

theorem verify_val (w : W) : (verify.run sys w).val = none := by
  simp [verify]

theorem cleanup_val (i : Installer) (w : W) : ((cleanup i).run sys w).val = none := by
  simp [cleanup]

end BestEffort

section PipelineShape
variable {W : Type} (sys : Sys W)

theorem runSteps_append_run (totalSteps : Nat) (ss tt : List (String × Prog GoError)) :
    ∀ (idx : Nat) (w : W),
      (runSteps totalSteps idx (ss ++ tt)).run sys w =
        match ((runSteps totalSteps idx ss).run sys w).val with
        | some _ => (runSteps totalSteps idx ss).run sys w
        | none =>
          ⟨((runSteps totalSteps (idx + ss.length) tt).run sys
              ((runSteps totalSteps idx ss).run sys w).world).val,
           ((runSteps totalSteps (idx + ss.length) tt).run sys
              ((runSteps totalSteps idx ss).run sys w).world).world,
           ((runSteps totalSteps idx ss).run sys w).trace ++
             ((runSteps totalSteps (idx + ss.length) tt).run sys
               ((runSteps totalSteps idx ss).run sys w).world).trace⟩ := by
  induction ss with
  | nil => intro idx w; simp [runSteps]
  | cons s rest ih =>
    obtain ⟨name, fn⟩ := s
    intro idx w
    rw [List.cons_append, runSteps_cons_run, runSteps_cons_run]
    cases hfn : (fn.run sys (sys.handle (.stepStart (idx + 1) totalSteps name) w).2).val with
    | some e => simp
    | none =>
      simp only [ih]
      cases hrest : ((runSteps totalSteps (idx + 1) rest).run sys
        (sys.handle (.stepDone name)
          (fn.run sys (sys.handle (.stepStart (idx + 1) totalSteps name) w).2).world).2).val with
      | some e => simp [hrest]
      | none =>
        simp [hrest, Nat.add_assoc, Nat.add_comm 1]

theorem runSteps_all {P : Op → Prop} (totalSteps : Nat) (ss : List (String × Prog GoError))
    (hsteps : ∀ s ∈ ss, s.2.All P)
    (hstart : ∀ s ∈ ss, ∀ idx, P (.stepStart idx totalSteps s.1))
    (hdone : ∀ name, P (.stepDone name)) :
    ∀ idx, (runSteps totalSteps idx ss).All P := by
  induction ss with
  | nil => intro idx; simp [runSteps, pure_def, Prog.All]
  | cons s rest ih =>
    obtain ⟨name, fn⟩ := s
    intro idx
    simp only [runSteps]
    refine Prog.All.bind ?_ (fun _ => ?_)
    · simp only [printStepStart, Prog.All, implies_true, and_true]
      exact hstart (name, fn) (List.mem_cons_self _ _) _
    · refine Prog.All.bind (hsteps (name, fn) (List.mem_cons_self _ _)) (fun r => ?_)
      cases r with
      | some e => simp [pure_def, Prog.All]
      | none =>
        refine Prog.All.bind ?_ (fun _ => ?_)
        · simp only [printStepDone, Prog.All, implies_true, and_true]
          exact hdone name
        · exact ih (fun s hs => hsteps s (List.mem_cons_of_mem _ hs))
            (fun s hs => hstart s (List.mem_cons_of_mem _ hs)) _

theorem runSteps_error (totalSteps : Nat) (ss : List (String × Prog GoError))
    (hclean : ∀ s ∈ ss, s.2.All Op.isCollab) :
    ∀ (idx : Nat) (w : W) (e : String),
      ((runSteps totalSteps idx ss).run sys w).val = some e →
      ∃ name fn w' c, (name, fn) ∈ ss ∧ (fn.run sys w').val = some c ∧
        e = name ++ " failed: " ++ c ∧
        (fn.run sys w').trace <:+ ((runSteps totalSteps idx ss).run sys w).trace ∧
        ((runSteps totalSteps idx ss).run sys w).world = (fn.run sys w').world ∧
        ((stepsInvoked ((runSteps totalSteps idx ss).run sys w).trace).getLast?).map Prod.snd =
          some name := by
  induction ss with
  | nil => intro idx w e h; simp [runSteps] at h
  | cons s rest ih =>
    obtain ⟨name, fn⟩ := s
    intro idx w e h
    have hfn : ∀ ev ∈ (fn.run sys (sys.handle (.stepStart (idx + 1) totalSteps name) w).2).trace,
        ev.op.isCollab := (hclean (name, fn) (List.mem_cons_self _ _)).trace sys _
    have hnil := stepsInvoked_eq_nil hfn
    rw [runSteps_cons_run] at h ⊢
    cases hv : (fn.run sys (sys.handle (.stepStart (idx + 1) totalSteps name) w).2).val with
    | some c =>
      rw [hv] at h
      simp only [Option.some.injEq] at h
      refine ⟨name, fn, _, c, List.mem_cons_self _ _, hv, h.symm, ?_, ?_, ?_⟩
      · exact List.suffix_cons _ _
      · rfl
      · simp [stepsInvoked, hnil]
    | none =>
      rw [hv] at h
      simp only at h ⊢
      obtain ⟨nm, f, w', c, hmem, hc, he, hsuf, hw, hinv⟩ := ih
        (fun s hs => hclean s (List.mem_cons_of_mem _ hs)) _ _ e h
      refine ⟨nm, f, w', c, List.mem_cons_of_mem _ hmem, hc, he, ?_, hw, ?_⟩
      · exact (hsuf.trans (List.suffix_cons _ _)).trans
          ((List.suffix_append _ _).trans (List.suffix_cons _ _))
      · simp only [stepsInvoked, stepsInvoked_append, hnil, List.nil_append]
        cases hl : stepsInvoked ((runSteps totalSteps (idx + 1) rest).run sys
          (sys.handle (.stepDone name)
            (fn.run sys (sys.handle (.stepStart (idx + 1) totalSteps name) w).2).world).2).trace with
        | nil => rw [hl] at hinv; simp at hinv
        | cons a l => rw [hl] at hinv; simpa [List.getLast?_cons_cons] using hinv

end PipelineShape

section Errors
variable {W : Type} (sys : Sys W)

theorem lastErr_singleton (ev : Event) : lastErr [ev] = ev.err := rfl

theorem lastErr_cons (ev : Event) {tr : List Event} (h : tr ≠ []) :
    lastErr (ev :: tr) = lastErr tr := by
  cases tr with
  | nil => exact absurd rfl h
  | cons a l => simp [lastErr, List.getLast?_cons_cons]

theorem lastErr_append (tr₁ : List Event) {tr₂ : List Event} (h : tr₂ ≠ []) :
    lastErr (tr₁ ++ tr₂) = lastErr tr₂ := by
  induction tr₁ with
  | nil => rfl
  | cons a l ih => rw [List.cons_append, lastErr_cons _ (by simp [h]), ih]

theorem ne_nil_of_lastErr {tr : List Event} {c : String} (h : lastErr tr = some c) : tr ≠ [] := by
  intro hn
  subst hn
  simp [lastErr] at h

theorem lastErr_of_suffix {s t : List Event} {c : String} (hs : s <:+ t)
    (h : lastErr s = some c) : lastErr t = some c := by
  obtain ⟨pre, rfl⟩ := hs
  rw [lastErr_append _ (ne_nil_of_lastErr h), h]

theorem downloadFile_err (url path : String) (w : W) (c : String)
    (h : ((downloadFile url path).run sys w).val = some c) :
    lastErr ((downloadFile url path).run sys w).trace = some c := by
  simp only [downloadFile, httpGet, osCreate, ioCopy, run_bind, run_call, run_ret, run_pure] at h ⊢
  split at h
  · simp_all [lastErr, Event.err]
  · simp only [run_bind, run_call, run_ret, run_pure] at h ⊢
    split at h
    · simp_all [lastErr, Event.err]
    · simp_all [lastErr, Event.err]

theorem extractFiles_err (lib : Lib) (dest : String) (files : List ZipFile) :
    ∀ (w : W) (c : String), ((extractFiles lib dest files).run sys w).val = some c →
      lastErr ((extractFiles lib dest files).run sys w).trace = some c := by
  induction files with
  | nil => intro w c h; simp [extractFiles] at h
  | cons f rest ih =>
    intro w c h
    simp only [extractFiles, osMkdirAll, zipFileOpen, osOpenFile, ioCopy, run_bind, run_call,
      run_ret, run_pure] at h ⊢
    by_cases hd : f.isDir = true
    · simp only [hd, if_true, run_bind, run_call, run_ret, run_pure] at h ⊢
      have := ih _ _ h
      simp only [List.singleton_append, List.nil_append]
      rw [lastErr_cons _ (ne_nil_of_lastErr this)]
      exact this
    · simp only [hd, Bool.false_eq_true, if_false, run_bind, run_call, run_ret, run_pure] at h ⊢
      split at h
      · simp_all [lastErr, Event.err]
      · simp only [run_bind, run_call, run_ret, run_pure] at h ⊢
        split at h
        · simp_all [lastErr, Event.err]
        · simp only [run_bind, run_call, run_ret, run_pure] at h ⊢
          split at h
          · simp_all [lastErr, Event.err]
          · simp only [run_bind, run_call, run_ret, run_pure] at h ⊢
            split at h
            · simp_all [lastErr, Event.err]
            · have := ih _ _ h
              simp only [List.singleton_append, List.nil_append, List.append_eq,
                List.cons_append]
              rw [lastErr_cons _ (by simp), lastErr_cons _ (by simp), lastErr_cons _ (by simp),
                lastErr_cons _ (ne_nil_of_lastErr this)]
              exact this

theorem extractZip_err (lib : Lib) (src dest : String) (w : W) (c : String)
    (h : ((extractZip lib src dest).run sys w).val = some c) :
    lastErr ((extractZip lib src dest).run sys w).trace = some c := by
  simp only [extractZip, zipOpenReader, run_bind, run_call, run_ret, run_pure] at h ⊢
  split at h
  · simp_all [lastErr, Event.err]
  · rename_i files hfiles
    have := extractFiles_err sys lib dest files _ _ h
    simp only [hfiles, List.singleton_append]
    rw [lastErr_cons _ (ne_nil_of_lastErr this)]
    exact this

theorem setupDirs_err (dirs : List String) :
    ∀ (w : W) (c : String), ((setupDirs dirs).run sys w).val = some c →
      lastErr ((setupDirs dirs).run sys w).trace = some c := by
  induction dirs with
  | nil => intro w c h; simp [setupDirs] at h
  | cons d rest ih =>
    intro w c h
    simp only [setupDirs, osMkdirAll, run_bind, run_call, run_ret, run_pure] at h ⊢
    split at h
    · simp_all [lastErr, Event.err]
    · have := ih _ _ h
      simp only [List.singleton_append]
      rw [lastErr_cons _ (ne_nil_of_lastErr this)]
      exact this

end Errors

section Labelled

theorem Labelled_pure_none (labels : List String) : (pure none : Prog GoError).Labelled labels := by
  intro W sys w e h
  simp at h

theorem Labelled_bind {α : Type} (labels : List String) (q : Prog α) (f : α → Prog GoError)
    (hf : ∀ a, (f a).Labelled labels) : (q >>= f).Labelled labels := by
  intro W sys w e h
  simp only [run_bind] at h ⊢
  obtain ⟨c, hc, hl⟩ := hf _ W sys _ e h
  exact ⟨c, by rw [lastErr_append _ (ne_nil_of_lastErr hc)]; exact hc, hl⟩

theorem Labelled_check (labels : List String) (l : String) (q : Prog GoError)
    (f : GoError → Prog GoError)
    (hq : ∀ {W : Type} (sys : Sys W) (w : W) (c : String), (q.run sys w).val = some c →
      lastErr (q.run sys w).trace = some c)
    (hsome : ∀ err, f (some err) = pure (some (l ++ err))) (hl : l ∈ labels)
    (hnone : (f none).Labelled labels) : (q >>= f).Labelled labels := by
  intro W sys w e h
  simp only [run_bind] at h ⊢
  cases hv : (q.run sys w).val with
  | none =>
    rw [hv] at h
    obtain ⟨c, hc, hl'⟩ := hnone W sys _ e h
    refine ⟨c, ?_, hl'⟩
    rw [lastErr_append _ (ne_nil_of_lastErr hc)]
    exact hc
  | some err =>
    rw [hv, hsome] at h
    simp only [run_pure, Option.some.injEq] at h
    refine ⟨err, ?_, l, hl, h.symm⟩
    rw [hsome]
    simpa using hq sys w err hv

theorem Labelled_mono {labels labels' : List String} {p : Prog GoError}
    (h : p.Labelled labels) (hsub : ∀ l ∈ labels, l ∈ labels') : p.Labelled labels' := by
  intro W sys w e he
  obtain ⟨c, hc, l, hl, hel⟩ := h W sys w e he
  exact ⟨c, hc, l, hsub l hl, hel⟩

theorem cmdRun_raw (cmd : Cmd) {W : Type} (sys : Sys W) (w : W) (c : String)
    (h : ((cmdRun cmd).run sys w).val = some c) :
    lastErr ((cmdRun cmd).run sys w).trace = some c := by
  simp_all [cmdRun, lastErr, Event.err]

theorem osMkdirAll_raw (path : String) (perm : Nat) {W : Type} (sys : Sys W) (w : W) (c : String)
    (h : ((osMkdirAll path perm).run sys w).val = some c) :
    lastErr ((osMkdirAll path perm).run sys w).trace = some c := by
  simp_all [osMkdirAll, lastErr, Event.err]

theorem setup_labelled (i : Installer) : (setup i).Labelled [""] := by
  intro W sys w e h
  exact ⟨e, setupDirs_err sys _ w e h, "", List.mem_singleton.mpr rfl, (String.empty_append e).symm⟩

theorem installNodeJS_labelled (lib : Lib) (cfg : Config) (i : Installer) :
    (installNodeJS lib cfg i).Labelled ["download failed: ", "installation failed: "] := by
  unfold installNodeJS
  refine Labelled_bind _ _ _ (fun b => ?_)
  split
  · exact Labelled_bind _ _ _ (fun _ => Labelled_pure_none _)
  · refine Labelled_check ["download failed: ", "installation failed: "] "download failed: " _ _
      (fun sys w c => downloadFile_err sys _ _ w c) (fun _ => rfl) (by decide) ?_
    show Prog.Labelled _ (runCommandWait _ _ >>= _)
    exact Labelled_check ["download failed: ", "installation failed: "] "installation failed: " _ _ (fun sys w c => cmdRun_raw _ sys w c)
      (fun _ => rfl) (by decide) (Labelled_pure_none _)

theorem installJava_labelled (lib : Lib) (cfg : Config) (i : Installer) :
    (installJava lib cfg i).Labelled ["download failed: ", "extraction failed: "] := by
  unfold installJava
  refine Labelled_bind _ _ _ (fun st => ?_)
  split
  · refine Labelled_check ["download failed: ", "extraction failed: "] "download failed: " _ _
      (fun sys w c => downloadFile_err sys _ _ w c) (fun _ => rfl) (by decide) ?_
    show Prog.Labelled _ (extractZip _ _ _ >>= _)
    exact Labelled_check ["download failed: ", "extraction failed: "] "extraction failed: " _ _
      (fun sys w c => extractZip_err sys _ _ _ w c) (fun _ => rfl) (by decide)
      (Labelled_pure_none _)
  · exact Labelled_pure_none _

theorem installADB_labelled (lib : Lib) (cfg : Config) (i : Installer) :
    (installADB lib cfg i).Labelled
      ["download failed: ", "failed to create directory: ", "extraction failed: "] := by
  unfold installADB
  refine Labelled_check
    ["download failed: ", "failed to create directory: ", "extraction failed: "]
    "download failed: " _ _
    (fun sys w c => downloadFile_err sys _ _ w c) (fun _ => rfl) (by decide) ?_
  show Prog.Labelled _ (osMkdirAll _ _ >>= _)
  refine Labelled_check
    ["download failed: ", "failed to create directory: ", "extraction failed: "]
    "failed to create directory: " _ _
    (fun sys w c => osMkdirAll_raw _ _ sys w c) (fun _ => rfl) (by decide) ?_
  show Prog.Labelled _ (extractZip _ _ _ >>= _)
  exact Labelled_check
    ["download failed: ", "failed to create directory: ", "extraction failed: "]
    "extraction failed: " _ _
    (fun sys w c => extractZip_err sys _ _ _ w c) (fun _ => rfl) (by decide)
    (Labelled_pure_none _)

theorem checkAndInstallADB_labelled (lib : Lib) (cfg : Config) (i : Installer) :
    (checkAndInstallADB lib cfg i).Labelled
      ["download failed: ", "failed to create directory: ", "extraction failed: "] := by
  unfold checkAndInstallADB
  refine Labelled_bind _ _ _ (fun b => ?_)
  split
  · refine Labelled_bind _ _ _ (fun r => ?_)
    obtain ⟨out, err⟩ := r
    dsimp only
    split
    · exact Labelled_pure_none _
    · exact installADB_labelled _ _ _
  · exact installADB_labelled _ _ _

theorem npmInstallAppium_labelled : npmInstallAppium.Labelled ["npm install failed: "] := by
  intro W sys w e h
  simp only [npmInstallAppium, cmdCombinedOutput, run_bind, run_call, run_ret, run_pure] at h ⊢
  split at h
  · rename_i c hc
    simp only [run_pure, Option.some.injEq] at h
    exact ⟨c, by simp [lastErr, Event.err, hc], _, List.mem_singleton.mpr rfl, h.symm⟩
  · simp at h

theorem installAppium_labelled : installAppium.Labelled ["npm install failed: "] := by
  unfold installAppium
  refine Labelled_bind _ _ _ (fun b => ?_)
  split
  · refine Labelled_bind _ _ _ (fun r => ?_)
    obtain ⟨out, err⟩ := r
    dsimp only
    split
    · exact Labelled_pure_none _
    · exact npmInstallAppium_labelled
  · exact npmInstallAppium_labelled

theorem installDependencies_labelled (lib : Lib) (i : Installer) :
    (installDependencies lib i).Labelled ["npm install failed: "] := by
  unfold installDependencies
  refine Labelled_bind _ _ _ (fun st => ?_)
  split
  · exact Labelled_pure_none _
  · refine Labelled_bind _ _ _ (fun st => ?_)
    split
    · exact Labelled_pure_none _
    · exact Labelled_check ["npm install failed: "] "npm install failed: " _ _
        (fun sys w c => cmdRun_raw _ sys w c) (fun _ => rfl) (by decide) (Labelled_pure_none _)

theorem checkAndInstallUIAutomator2_err {W : Type} (sys : Sys W) (w : W) (e : String)
    (h : (checkAndInstallUIAutomator2.run sys w).val = some e) :
    e = msgAppiumNotFound ∨ e = msgDriverFailed := by
  rw [checkAndInstallUIAutomator2_run] at h
  simp only at h
  split_ifs at h <;> simp_all

end Labelled

section Gating
variable {W : Type} (sys : Sys W)

theorem Prog.All.invariant {α : Type} {P : Op → Prop} {inv : W → Prop} {p : Prog α}
    (hp : p.All P) (hstep : ∀ op w, P op → inv w → inv (sys.handle op w).2) :
    ∀ w, inv w → inv (p.run sys w).world := by
  induction p with
  | ret a => intro w h; exact h
  | call op k ih =>
    intro w h
    simp only [run_call]
    exact ih _ (hp.2 _) _ (hstep op w hp.1 h)

theorem keepsFiles_notCleanup (op : Op) (h : op.keepsFiles) : op.notCleanup := by
  cases op <;> simp_all [Op.keepsFiles, Op.notCleanup]

theorem firstTen_all (lib : Lib) (cfg : Config) (i : Installer) :
    ∀ idx, (runSteps 11 idx ((steps lib cfg i).take 10)).All Op.notCleanup := by
  refine runSteps_all 11 _ (fun s hs => (steps_take_all lib cfg i s hs).mono keepsFiles_notCleanup)
    ?_ (fun name => by simp [Op.notCleanup])
  intro s hs idx
  simp only [steps, List.take_succ_cons, List.take_zero, List.mem_cons, List.mem_singleton,
    List.not_mem_nil, or_false] at hs
  rcases hs with rfl | rfl | rfl | rfl | rfl | rfl | rfl | rfl | rfl | rfl <;>
    simp [Op.notCleanup]

theorem RunInstallation_run_eq (lib : Lib) (cfg : Config) (i : Installer) (w : W) :
    (RunInstallation lib cfg i).run sys w =
      match ((runSteps 11 0 ((steps lib cfg i).take 10)).run sys w).val with
      | some _ => (runSteps 11 0 ((steps lib cfg i).take 10)).run sys w
      | none =>
        ⟨none,
         (sys.handle (.stepDone "Cleaning up")
           (sys.handle (.removeAll i.tempPath)
             (sys.handle (.stepStart 11 11 "Cleaning up")
               ((runSteps 11 0 ((steps lib cfg i).take 10)).run sys w).world).2).2).2,
         ((runSteps 11 0 ((steps lib cfg i).take 10)).run sys w).trace ++
           [⟨.stepStart 11 11 "Cleaning up", ()⟩,
            ⟨.removeAll i.tempPath,
              (sys.handle (.removeAll i.tempPath)
                (sys.handle (.stepStart 11 11 "Cleaning up")
                  ((runSteps 11 0 ((steps lib cfg i).take 10)).run sys w).world).2).1⟩,
            ⟨.stepDone "Cleaning up", ()⟩]⟩ := by
  have h := runSteps_append_run sys 11 ((steps lib cfg i).take 10) [("Cleaning up", cleanup i)] 0 w
  rw [← steps_eq] at h
  show (runSteps 11 0 (steps lib cfg i)).run sys w = _
  rw [h]
  cases hv : ((runSteps 11 0 ((steps lib cfg i).take 10)).run sys w).val with
  | some e => rfl
  | none =>
    simp only [runSteps_cons_run, cleanup, osRemoveAll, run_bind, run_call, run_ret, run_pure,
      runSteps]
    rfl

theorem setup_creates (i : Installer) {dirExists : W → Prop}
    (laws : TempDirLaws sys i.tempPath dirExists) (w : W)
    (h : ((setup i).run sys w).val = none) : dirExists ((setup i).run sys w).world := by
  simp only [setup, setupDirs, osMkdirAll, run_bind, run_call, run_ret, run_pure] at h ⊢
  split at h
  · simp at h
  · simp only [run_bind, run_call, run_ret, run_pure] at h ⊢
    split at h
    · simp at h
    · rename_i h2
      simp only [run_pure]
      exact laws.created _ _ h2

theorem firstTen_dirExists (lib : Lib) (cfg : Config) (i : Installer) {dirExists : W → Prop}
    (laws : TempDirLaws sys i.tempPath dirExists) (w : W)
    (hsetup : (stepOutcome sys 11 0 (steps lib cfg i) w 0).map Outcome.val = some none) :
    dirExists ((runSteps 11 0 ((steps lib cfg i).take 10)).run sys w).world := by
  have hs : ((setup i).run sys
      (sys.handle (.stepStart 1 11 "Setting up directories") w).2).val = none := by
    simpa [stepOutcome, steps] using hsetup
  have hten : (steps lib cfg i).take 10 =
      ("Setting up directories", setup i) :: ((steps lib cfg i).take 10).tail := rfl
  have hnine : ∀ s ∈ ((steps lib cfg i).take 10).tail, s ∈ (steps lib cfg i).take 10 :=
    fun s hs => List.mem_of_mem_tail hs
  have hall : (runSteps 11 1 ((steps lib cfg i).take 10).tail).All Op.notCleanup := by
    refine runSteps_all 11 _
      (fun s hs => (steps_take_all lib cfg i s (hnine s hs)).mono keepsFiles_notCleanup)
      ?_ (fun name => by simp [Op.notCleanup]) 1
    intro s hs idx
    simp only [steps, List.take_succ_cons, List.take_zero, List.tail_cons, List.mem_cons,
      List.mem_singleton, List.not_mem_nil, or_false] at hs
    rcases hs with rfl | rfl | rfl | rfl | rfl | rfl | rfl | rfl | rfl <;>
      simp [Op.notCleanup]
  rw [hten, runSteps_cons_run, hs]
  simp only
  refine hall.invariant sys (fun op w' hop h => laws.kept op w' hop.1 h) _ ?_
  exact laws.kept _ _ (by simp) (setup_creates sys i laws _ hs)

end Gating

theorem simTempDirLaws (tmp : String) : TempDirLaws simSys tmp (fun w => tmp ∈ w.dirs) := by
  constructor
  · intro w perm h
    simp only [simSys, Sim.handle] at h ⊢
    split at h
    · simp at h
    · split at h
      · simp at h
      · rename_i h1 h2
        simp [h1, h2]
  · intro op w hop h
    cases op with
    | removeAll p => exact absurd rfl (hop p)
    | mkdirAll p perm =>
      simp only [simSys, Sim.handle]
      split
      · exact h
      · split
        · exact h
        · show tmp ∈ p :: w.dirs.filter (fun d => d != p)
          by_cases e : tmp = p
          · simp [e]
          · simp [e, h]
    | _ =>
      simp only [simSys, Sim.handle, Sim.plain, Sim.putFile]
      repeat' split
      all_goals exact h
  · intro w h
    simp only [simSys, Sim.handle] at h ⊢
    split at h
    · simp at h
    · rename_i h1
      simp [h1]
  · intro name w h
    exact h

section Extract
variable {W : Type} (sys : Sys W)

theorem extractFiles_cons_dir (lib : Lib) (dest : String) (f : ZipFile) (rest : List ZipFile)
    (w : W) (hd : f.isDir = true) :
    (extractFiles lib dest (f :: rest)).run sys w =
      ⟨((extractFiles lib dest rest).run sys
          (sys.handle (.mkdirAll (lib.join [dest, f.name]) f.mode) w).2).val,
       ((extractFiles lib dest rest).run sys
          (sys.handle (.mkdirAll (lib.join [dest, f.name]) f.mode) w).2).world,
       ⟨.mkdirAll (lib.join [dest, f.name]) f.mode,
          (sys.handle (.mkdirAll (lib.join [dest, f.name]) f.mode) w).1⟩ ::
         ((extractFiles lib dest rest).run sys
          (sys.handle (.mkdirAll (lib.join [dest, f.name]) f.mode) w).2).trace⟩ := by
  simp [extractFiles, osMkdirAll, hd]

theorem extractFiles_cons_file (lib : Lib) (dest : String) (f : ZipFile) (rest : List ZipFile)
    (w : W) (hd : f.isDir = false)
    (hok : ((extractFiles lib dest (f :: rest)).run sys w).val = none) :
    (sys.handle (.mkdirAll (lib.dir (lib.join [dest, f.name])) 0o755) w).1 = none ∧
    (sys.handle (.zipFileOpen f)
      (sys.handle (.mkdirAll (lib.dir (lib.join [dest, f.name])) 0o755) w).2).1 = none ∧
    (sys.handle (.openFile (lib.join [dest, f.name]) f.mode)
      (sys.handle (.zipFileOpen f)
        (sys.handle (.mkdirAll (lib.dir (lib.join [dest, f.name])) 0o755) w).2).2).1 = none ∧
    (sys.handle (.copy (lib.join [dest, f.name]) f.content)
      (sys.handle (.openFile (lib.join [dest, f.name]) f.mode)
        (sys.handle (.zipFileOpen f)
          (sys.handle (.mkdirAll (lib.dir (lib.join [dest, f.name])) 0o755) w).2).2).2).1 = none ∧
    ((extractFiles lib dest (f :: rest)).run sys w).val =
      ((extractFiles lib dest rest).run sys
        (sys.handle (.copy (lib.join [dest, f.name]) f.content)
          (sys.handle (.openFile (lib.join [dest, f.name]) f.mode)
            (sys.handle (.zipFileOpen f)
              (sys.handle (.mkdirAll (lib.dir (lib.join [dest, f.name])) 0o755)
                w).2).2).2).2).val ∧
    ((extractFiles lib dest (f :: rest)).run sys w).world =
      ((extractFiles lib dest rest).run sys
        (sys.handle (.copy (lib.join [dest, f.name]) f.content)
          (sys.handle (.openFile (lib.join [dest, f.name]) f.mode)
            (sys.handle (.zipFileOpen f)
              (sys.handle (.mkdirAll (lib.dir (lib.join [dest, f.name])) 0o755)
                w).2).2).2).2).world ∧
    (⟨.mkdirAll (lib.dir (lib.join [dest, f.name])) 0o755, none⟩ : Event) ∈
      ((extractFiles lib dest (f :: rest)).run sys w).trace ∧
    (⟨.openFile (lib.join [dest, f.name]) f.mode, none⟩ : Event) ∈
      ((extractFiles lib dest (f :: rest)).run sys w).trace ∧
    ∀ ev ∈ ((extractFiles lib dest rest).run sys
        (sys.handle (.copy (lib.join [dest, f.name]) f.content)
          (sys.handle (.openFile (lib.join [dest, f.name]) f.mode)
            (sys.handle (.zipFileOpen f)
              (sys.handle (.mkdirAll (lib.dir (lib.join [dest, f.name])) 0o755)
                w).2).2).2).2).trace,
      ev ∈ ((extractFiles lib dest (f :: rest)).run sys w).trace := by
  simp only [extractFiles, osMkdirAll, zipFileOpen, osOpenFile, ioCopy, run_bind, run_call,
    run_ret, run_pure, hd, Bool.false_eq_true, if_false] at hok ⊢
  split at hok
  · simp at hok
  · rename_i h1
    simp only [run_bind, run_call, run_ret, run_pure] at hok
    split at hok
    · simp at hok
    · rename_i h2
      simp only [run_bind, run_call, run_ret, run_pure] at hok
      split at hok
      · simp at hok
      · rename_i h3
        simp only [run_bind, run_call, run_ret, run_pure] at hok
        split at hok
        · simp at hok
        · rename_i h4
          simp only [h1, h2, h3, h4, run_bind, run_call, run_ret, run_pure]
          refine ⟨trivial, trivial, trivial, trivial, trivial, trivial, ?_, ?_, ?_⟩
          · simp [h1]
          · simp [h3]
          · intro ev hev
            simp [hev]

theorem filePaths_cons_dir (lib : Lib) (dest : String) (f : ZipFile) (rest : List ZipFile)
    (hd : f.isDir = true) : filePaths lib dest (f :: rest) = filePaths lib dest rest := by
  simp [filePaths, hd]

theorem filePaths_cons_file (lib : Lib) (dest : String) (f : ZipFile) (rest : List ZipFile)
    (hd : f.isDir = false) :
    filePaths lib dest (f :: rest) = lib.join [dest, f.name] :: filePaths lib dest rest := by
  simp [filePaths, hd]

theorem extractFiles_fidelity {ι : Type} (lib : Lib) (dest : String) (ident : String → ι)
    (contentAt : W → ι → Option (List Nat)) (laws : FileLaws sys ident contentAt)
    (files : List ZipFile) :
    ∀ w : W, ((filePaths lib dest files).map ident).Nodup →
      ((extractFiles lib dest files).run sys w).val = none →
      (∀ f ∈ files, f.isDir = false →
        contentAt ((extractFiles lib dest files).run sys w).world
            (ident (lib.join [dest, f.name])) = some f.content ∧
        (⟨.mkdirAll (lib.dir (lib.join [dest, f.name])) 0o755, none⟩ : Event) ∈
          ((extractFiles lib dest files).run sys w).trace ∧
        (⟨.openFile (lib.join [dest, f.name]) f.mode, none⟩ : Event) ∈
          ((extractFiles lib dest files).run sys w).trace) ∧
      (∀ k, k ∉ (filePaths lib dest files).map ident →
        contentAt ((extractFiles lib dest files).run sys w).world k = contentAt w k) := by
  induction files with
  | nil =>
    intro w _ _
    exact ⟨fun f hf => absurd hf (List.not_mem_nil f), fun k _ => by simp [extractFiles]⟩
  | cons f rest ih =>
    intro w hnd hok
    by_cases hd : f.isDir = true
    · rw [filePaths_cons_dir lib dest f rest hd] at hnd
      rw [extractFiles_cons_dir sys lib dest f rest w hd] at hok ⊢
      simp only at hok ⊢
      obtain ⟨ih1, ih2⟩ := ih (sys.handle (.mkdirAll (lib.join [dest, f.name]) f.mode) w).2 hnd hok
      refine ⟨fun g hg hgd => ?_, fun k hk => ?_⟩
      · rcases List.mem_cons.mp hg with rfl | hg
        · rw [hd] at hgd; cases hgd
        · exact ⟨(ih1 g hg hgd).1, List.mem_cons_of_mem _ (ih1 g hg hgd).2.1,
            List.mem_cons_of_mem _ (ih1 g hg hgd).2.2⟩
      · rw [filePaths_cons_dir lib dest f rest hd] at hk
        rw [ih2 k hk, laws.frame_mkdirAll]
    · have hd' : f.isDir = false := by simpa using hd
      rw [filePaths_cons_file lib dest f rest hd', List.map_cons] at hnd
      obtain ⟨hp, hnd'⟩ := List.nodup_cons.mp hnd
      obtain ⟨h1, h2, h3, h4, hval, hworld, hmk, hof, htr⟩ :=
        extractFiles_cons_file sys lib dest f rest w hd' hok
      have hp3 := laws.openFile_ok _ _ _ h3
      have hp4 := laws.copy_ok _ _ _ h4 hp3
      have hframe : ∀ k, k ≠ ident (lib.join [dest, f.name]) →
          contentAt (sys.handle (.copy (lib.join [dest, f.name]) f.content)
            (sys.handle (.openFile (lib.join [dest, f.name]) f.mode)
              (sys.handle (.zipFileOpen f)
                (sys.handle (.mkdirAll (lib.dir (lib.join [dest, f.name])) 0o755)
                  w).2).2).2).2 k = contentAt w k := by
        intro k hk
        rw [laws.frame_copy _ _ _ _ hk, laws.frame_openFile _ _ _ _ hk, laws.frame_zipFileOpen,
          laws.frame_mkdirAll]
      rw [hval] at hok
      obtain ⟨ih1, ih2⟩ := ih _ hnd' hok
      rw [hworld]
      refine ⟨fun g hg hgd => ?_, fun k hk => ?_⟩
      · rcases List.mem_cons.mp hg with rfl | hg
        · exact ⟨by rw [ih2 _ hp]; exact hp4, hmk, hof⟩
        · exact ⟨(ih1 g hg hgd).1, htr _ (ih1 g hg hgd).2.1, htr _ (ih1 g hg hgd).2.2⟩
      · rw [filePaths_cons_file lib dest f rest hd', List.map_cons] at hk
        simp only [List.mem_cons, not_or] at hk
        rw [ih2 k hk.2, hframe k hk.1]

end Extract

/-! ## The reference machine -/

theorem Sim.find_filter_ne (files : List (String × List Nat × Nat)) (p q : String) (h : q ≠ p) :
    (files.filter (fun e => e.1 != p)).find? (fun e => e.1 == q) =
      files.find? (fun e => e.1 == q) := by
  induction files with
  | nil => rfl
  | cons a l ih =>
    by_cases ha : a.1 = p
    · have hq : ¬ a.1 = q := fun hh => h (hh ▸ ha)
      rw [List.filter_cons_of_neg (by simp [ha]), List.find?_cons_of_neg _ (by simp [hq]), ih]
    · rw [List.filter_cons_of_pos (by simp [ha])]
      by_cases hq : a.1 = q
      · rw [List.find?_cons_of_pos _ (by simp [hq]), List.find?_cons_of_pos _ (by simp [hq])]
      · rw [List.find?_cons_of_neg _ (by simp [hq]), List.find?_cons_of_neg _ (by simp [hq]), ih]

theorem Sim.fileAt_putFile_self (w : Sim) (p : String) (c : List Nat) (m : Nat) :
    (w.putFile p c m).fileAt p = some (c, m) := by
  simp only [Sim.fileAt, Sim.putFile]
  rw [List.find?_cons_of_pos _ (by simp)]
  rfl

theorem Sim.fileAt_putFile_ne (w : Sim) (p q : String) (c : List Nat) (m : Nat) (h : q ≠ p) :
    (w.putFile p c m).fileAt q = w.fileAt q := by
  have hpq : ¬ p = q := fun hh => h hh.symm
  simp only [Sim.fileAt, Sim.putFile]
  rw [List.find?_cons_of_neg _ (by simp [hpq]), Sim.find_filter_ne _ _ _ h]

theorem simFileLaws : FileLaws simSys id Sim.contentAt := by
  constructor
  · intro w path perm h
    simp only [simSys, Sim.handle] at h ⊢
    split at h
    · simp at h
    · rename_i h1
      simp [h1, Sim.contentAt, Sim.fileAt_putFile_self]
  · intro w path data h hsome
    simp only [simSys, Sim.handle] at h ⊢
    split at h
    · simp at h
    · rename_i h1
      simp [h1, Sim.contentAt, Sim.fileAt_putFile_self]
  · intro w path perm k hk
    simp only [simSys, Sim.handle]
    split
    · rfl
    · simp only [Sim.contentAt]
      rw [Sim.fileAt_putFile_ne w path k _ _ hk]
  · intro w path data k hk
    simp only [simSys, Sim.handle]
    split
    · rfl
    · simp only [Sim.contentAt]
      rw [Sim.fileAt_putFile_ne w path k _ _ hk]
  · intro w path perm k
    simp only [simSys, Sim.handle]
    split
    · rfl
    · split <;> rfl
  · intro w f k
    rfl

/-! ## The driver-install step, run through the selection loop -/

theorem checkAndInstallUIAutomator2_run_of {W : Type} (sys : Sys W) (w : W)
    (v : String) (w' : W) (tr : List Event)
    (ho : (findAppiumCmd (appiumPaths (sys.handle (.getenv "USERNAME")
        (sys.handle primaryDriverInstall w).2).1)).run sys
      (sys.handle (.getenv "USERNAME") (sys.handle primaryDriverInstall w).2).2 = ⟨v, w', tr⟩) :
    checkAndInstallUIAutomator2.run sys w =
      if (sys.handle primaryDriverInstall w).1.2 = none then
        ⟨none, (sys.handle primaryDriverInstall w).2,
          [⟨primaryDriverInstall, (sys.handle primaryDriverInstall w).1⟩]⟩
      else if v = "" then
        ⟨some msgAppiumNotFound, w',
          ⟨primaryDriverInstall, (sys.handle primaryDriverInstall w).1⟩ ::
            ⟨.getenv "USERNAME", (sys.handle (.getenv "USERNAME")
              (sys.handle primaryDriverInstall w).2).1⟩ :: tr⟩
      else
        ⟨if (sys.handle (appiumDriverInstall v) w').1.2 = none then none
          else some msgDriverFailed,
         (sys.handle (appiumDriverInstall v) w').2,
         ⟨primaryDriverInstall, (sys.handle primaryDriverInstall w).1⟩ ::
           ⟨.getenv "USERNAME", (sys.handle (.getenv "USERNAME")
             (sys.handle primaryDriverInstall w).2).1⟩ ::
           (tr ++ [⟨appiumDriverInstall v, (sys.handle (appiumDriverInstall v) w').1⟩])⟩ := by
  rw [checkAndInstallUIAutomator2_run]
  simp only
  generalize (findAppiumCmd (appiumPaths (sys.handle (.getenv "USERNAME")
        (sys.handle primaryDriverInstall w).2).1)).run sys
      (sys.handle (.getenv "USERNAME") (sys.handle primaryDriverInstall w).2).2 = o at ho ⊢
  subst ho
  rfl

theorem findAppiumCmd_ops {W : Type} (sys : Sys W) (paths : List String) :
    ∀ w : W,
      (firstQualifying sys paths w = none →
        opsOf ((findAppiumCmd paths).run sys w).trace =
          paths.flatMap (fun q => [Op.lookPath q, Op.stat q])) ∧
      (∀ n p w', firstQualifying sys paths w = some (n, p, w') →
        ∃ last, (last = [Op.lookPath p] ∨ last = [Op.lookPath p, Op.stat p]) ∧
          opsOf ((findAppiumCmd paths).run sys w).trace =
            (paths.take n).flatMap (fun q => [Op.lookPath q, Op.stat q]) ++ last) := by
  induction paths with
  | nil =>
    intro w
    exact ⟨fun _ => by simp [findAppiumCmd, opsOf], fun n p w' h => by
      simp [firstQualifying] at h⟩
  | cons q rest ih =>
    intro w
    rw [findAppiumCmd_run_cons]
    by_cases h1 : (sys.handle (.lookPath q) w).1 = none
    · have hq : qualifies sys w q = true := by simp [qualifies, h1]
      have ha : afterProbe sys w q = (sys.handle (.lookPath q) w).2 := by simp [afterProbe, h1]
      simp only [firstQualifying, hq, if_true, h1, ha]
      refine ⟨fun h => by simp at h, fun n p w' h => ?_⟩
      simp only [Option.some.injEq, Prod.mk.injEq] at h
      obtain ⟨rfl, rfl, rfl⟩ := h
      exact ⟨[Op.lookPath q], Or.inl rfl, by simp [opsOf]⟩
    · have hn : (sys.handle (.lookPath q) w).1.isNone = false := by
        cases hh : (sys.handle (.lookPath q) w).1 <;> simp_all
      have ha : afterProbe sys w q =
          (sys.handle (.stat q) (sys.handle (.lookPath q) w).2).2 := by simp [afterProbe, hn]
      by_cases h2 : (sys.handle (.stat q) (sys.handle (.lookPath q) w).2).1 = .notExist
      · have hq : qualifies sys w q = false := by simp [qualifies, hn, h2, isNotExist]
        simp only [firstQualifying, hq, Bool.false_eq_true, if_false, h1, h2, if_true, ha]
        obtain ⟨ih1, ih2⟩ := ih (sys.handle (.stat q) (sys.handle (.lookPath q) w).2).2
        refine ⟨fun h => ?_, fun n p w' h => ?_⟩
        · have h' := ih1 (by simpa using h)
          simp only [opsOf, List.map_cons] at h' ⊢
          rw [h']
          simp
        · cases hf : firstQualifying sys rest
              (sys.handle (.stat q) (sys.handle (.lookPath q) w).2).2 with
          | none => rw [hf] at h; simp at h
          | some r =>
            obtain ⟨m, p', w''⟩ := r
            rw [hf] at h
            simp only [Option.map_some', Option.some.injEq, Prod.mk.injEq] at h
            obtain ⟨rfl, rfl, rfl⟩ := h
            obtain ⟨last, hlast, hops⟩ := ih2 m p' w'' hf
            refine ⟨last, hlast, ?_⟩
            simp only [opsOf, List.map_cons] at hops ⊢
            rw [hops]
            simp
      · have hne : isNotExist (sys.handle (.stat q) (sys.handle (.lookPath q) w).2).1 = false := by
          cases hh : (sys.handle (.stat q) (sys.handle (.lookPath q) w).2).1 <;>
            simp_all [isNotExist]
        have hq : qualifies sys w q = true := by simp [qualifies, hn, hne]
        simp only [firstQualifying, hq, if_true, h1, h2, if_false, ha]
        refine ⟨fun h => by simp at h, fun n p w' h => ?_⟩
        simp only [Option.some.injEq, Prod.mk.injEq] at h
        obtain ⟨rfl, rfl, rfl⟩ := h
        exact ⟨[Op.lookPath q, Op.stat q], Or.inr rfl, by simp [opsOf]⟩

theorem probedPaths_driver_head (r1 : Resp primaryDriverInstall) (key : String)
    (r2 : Resp (.getenv key)) (tr : List Event) :
    probedPaths (⟨primaryDriverInstall, r1⟩ :: ⟨.getenv key, r2⟩ :: tr) = probedPaths tr := rfl

theorem probedPaths_driver_last (tr : List Event) (p : String)
    (r : Resp (appiumDriverInstall p)) :
    probedPaths (tr ++ [⟨appiumDriverInstall p, r⟩]) = probedPaths tr := by
  rw [probedPaths_append]
  exact List.append_nil _

theorem Outcome.eq_mk {α W : Type} (o : Outcome α W) (v : α) (w : W) (hv : o.val = v)
    (hw : o.world = w) : o = ⟨v, w, o.trace⟩ := by
  cases o
  simp_all

/-! ## Claims -/

/-- C1. `RunInstallation` is fail-fast: when the step at position `k` of the
plan (counted from 0) is the first whose function returns an error `c`, every
step before it having returned `nil`, the run returns the error
`<name of that step> failed: <c>`, the steps started are exactly the first
`k + 1` steps of the plan, each once and in plan order with indices `1..k+1`,
and the run ends in the world the failing step left, the calls of that step
being the last of the trace: no later step is invoked. -/
theorem RunInstallation_fail_fast {W : Type} (sys : Sys W) (lib : Lib) (cfg : Config)
    (i : Installer) (w : W) (k : Nat) (name c : String)
    (hname : stepNames[k]? = some name)
    (hprev : ∀ j < k, (stepOutcome sys 11 0 (steps lib cfg i) w j).map Outcome.val = some none)
    (hfail : (stepOutcome sys 11 0 (steps lib cfg i) w k).map Outcome.val = some (some c)) :
    ((RunInstallation lib cfg i).run sys w).val = some (name ++ " failed: " ++ c) ∧
      stepsInvoked ((RunInstallation lib cfg i).run sys w).trace =
        (stepNames.take (k + 1)).enumFrom 1 ∧
      ∃ ok, stepOutcome sys 11 0 (steps lib cfg i) w k = some ok ∧
        ((RunInstallation lib cfg i).run sys w).world = ok.world ∧
        ok.trace <:+ ((RunInstallation lib cfg i).run sys w).trace := by
  obtain ⟨nm, hnm, hval, htr, hrest⟩ :=
    runSteps_fail_fast sys 11 (steps lib cfg i) 0 w k c (steps_all lib cfg i) hprev hfail
  rw [steps_names] at hnm htr
  rw [hname] at hnm
  cases hnm
  exact ⟨hval, htr, hrest⟩

/-- Witness of C1: on the reference machine with nothing installed and no
archive to open, the JDK step (position 2) is the first to fail. -/
theorem RunInstallation_fail_fast_witness :
    stepNames[2]? = some "Installing Java JDK" ∧
    (∀ j < 2, (stepOutcome simSys 11 0 (steps simLib simCfg simInstaller) simEmpty j).map
      Outcome.val = some none) ∧
    (stepOutcome simSys 11 0 (steps simLib simCfg simInstaller) simEmpty 2).map Outcome.val =
      some (some "extraction failed: no such file") ∧
    ((RunInstallation simLib simCfg simInstaller).run simSys simEmpty).val =
      some ("Installing Java JDK" ++ " failed: " ++ "extraction failed: no such file") ∧
    stepsInvoked ((RunInstallation simLib simCfg simInstaller).run simSys simEmpty).trace =
      [(1, "Setting up directories"), (2, "Installing Node.js"), (3, "Installing Java JDK")] :=
  ⟨by decide, by decide, by decide,
    (RunInstallation_fail_fast simSys simLib simCfg simInstaller simEmpty 2
      "Installing Java JDK" "extraction failed: no such file" (by decide) (by decide) (by decide)).1,
    (RunInstallation_fail_fast simSys simLib simCfg simInstaller simEmpty 2
      "Installing Java JDK" "extraction failed: no such file" (by decide) (by decide) (by decide)).2.1⟩

/-- C2. Idempotency short-circuit of the four tool-install steps: when
`node` is resolvable, `installNodeJS` returns `nil` having only looked it up
and asked its version; when `os.Stat` finds the `jdk-24.0.1` directory under
the install root, `installJava` returns `nil` having made no other call; when
`adb` (resp. `appium`) is resolvable and its version probe succeeds,
`checkAndInstallADB` (resp. `installAppium`) returns `nil` having made only
these two probes.  In each case the trace holds no download, archive
expansion, installer or package-manager call. -/
theorem idempotent_steps_skip_action {W : Type} (sys : Sys W) (lib : Lib) (cfg : Config)
    (i : Installer) (w : W) :
    ((sys.handle (.lookPath "node") w).1 = none →
      ((installNodeJS lib cfg i).run sys w).val = none ∧
      opsOf ((installNodeJS lib cfg i).run sys w).trace =
        [.lookPath "node", .cmdOutput ⟨"node", ["--version"], ""⟩]) ∧
    ((sys.handle (.stat (lib.join [i.installPath, "jdk-24.0.1"])) w).1 = .ok →
      ((installJava lib cfg i).run sys w).val = none ∧
      opsOf ((installJava lib cfg i).run sys w).trace =
        [.stat (lib.join [i.installPath, "jdk-24.0.1"])]) ∧
    ((sys.handle (.lookPath "adb") w).1 = none →
      (sys.handle (.cmdOutput ⟨"adb", ["version"], ""⟩)
        (sys.handle (.lookPath "adb") w).2).1.2 = none →
      ((checkAndInstallADB lib cfg i).run sys w).val = none ∧
      opsOf ((checkAndInstallADB lib cfg i).run sys w).trace =
        [.lookPath "adb", .cmdOutput ⟨"adb", ["version"], ""⟩]) ∧
    ((sys.handle (.lookPath "appium") w).1 = none →
      (sys.handle (.cmdOutput ⟨"appium", ["--version"], ""⟩)
        (sys.handle (.lookPath "appium") w).2).1.2 = none →
      (installAppium.run sys w).val = none ∧
      opsOf (installAppium.run sys w).trace =
        [.lookPath "appium", .cmdOutput ⟨"appium", ["--version"], ""⟩]) := by
  refine ⟨fun h => ?_, fun h => ?_, fun h1 h2 => ?_, fun h1 h2 => ?_⟩
  · simp [installNodeJS, commandExists, execLookPath, runCommand, cmdOutput, opsOf, h]
  · simp [installJava, osStat, opsOf, h, isNotExist]
  · simp [checkAndInstallADB, commandExists, execLookPath, runCommand, cmdOutput, opsOf, h1, h2]
  · simp [installAppium, commandExists, execLookPath, runCommand, cmdOutput, opsOf, h1, h2]

/-- Witness of C2: the reference machine with the four tools present. -/
theorem idempotent_steps_skip_action_witness :
    (simSys.handle (.lookPath "node") simInstalled).1 = none ∧
    (simSys.handle (.stat (simLib.join [simInstaller.installPath, "jdk-24.0.1"]))
      simInstalled).1 = .ok ∧
    (simSys.handle (.lookPath "adb") simInstalled).1 = none ∧
    (simSys.handle (.cmdOutput ⟨"adb", ["version"], ""⟩)
      (simSys.handle (.lookPath "adb") simInstalled).2).1.2 = none ∧
    (simSys.handle (.lookPath "appium") simInstalled).1 = none ∧
    (simSys.handle (.cmdOutput ⟨"appium", ["--version"], ""⟩)
      (simSys.handle (.lookPath "appium") simInstalled).2).1.2 = none ∧
    ((installNodeJS simLib simCfg simInstaller).run simSys simInstalled).val = none ∧
    ((installJava simLib simCfg simInstaller).run simSys simInstalled).val = none ∧
    ((checkAndInstallADB simLib simCfg simInstaller).run simSys simInstalled).val = none ∧
    (installAppium.run simSys simInstalled).val = none :=
  ⟨by decide, by decide, by decide, by decide, by decide, by decide,
    ((idempotent_steps_skip_action simSys simLib simCfg simInstaller simInstalled).1
      (by decide)).1,
    ((idempotent_steps_skip_action simSys simLib simCfg simInstaller simInstalled).2.1
      (by decide)).1,
    ((idempotent_steps_skip_action simSys simLib simCfg simInstaller simInstalled).2.2.1
      (by decide) (by decide)).1,
    ((idempotent_steps_skip_action simSys simLib simCfg simInstaller simInstalled).2.2.2
      (by decide) (by decide)).1⟩

/-- C3 (amended). Whenever `checkAndInstallUIAutomator2` returns an error,
the primary `npm install -g appium-uiautomator2-driver` invocation was the
first call and failed, and the fallback paths `appium`,
`C:\Users\<USERNAME>\AppData\Roaming\npm\appium.cmd` and
`C:\Program Files\nodejs\appium.cmd` were probed in that order, without gap,
up to and including the first one that qualifies.  When none qualifies the
error is that the appium command was not found and the calls of the step are
the primary invocation, the reading of `USERNAME`, and `exec.LookPath` then
`os.Stat` of each of the three paths in order.  When one qualifies, the paths
before it were probed with `exec.LookPath` then `os.Stat`, it was probed
itself, its `driver install uiautomator2` invocation was the last call and
failed, and the paths after it were not probed. -/
theorem fallback_probe_order {W : Type} (sys : Sys W) (w : W) (e : String)
    (herr : (checkAndInstallUIAutomator2.run sys w).val = some e) :
    ((checkAndInstallUIAutomator2.run sys w).trace.head?.map Event.op =
        some primaryDriverInstall ∧
      (sys.handle primaryDriverInstall w).1.2 ≠ none) ∧
    (firstQualifying sys
        [ "appium",
          "C:\\Users\\" ++ (sys.handle (.getenv "USERNAME")
            (sys.handle primaryDriverInstall w).2).1 ++ "\\AppData\\Roaming\\npm\\appium.cmd",
          "C:\\Program Files\\nodejs\\appium.cmd" ]
        (sys.handle (.getenv "USERNAME") (sys.handle primaryDriverInstall w).2).2 = none →
      e = msgAppiumNotFound ∧
      probedPaths (checkAndInstallUIAutomator2.run sys w).trace =
        [ "appium",
          "C:\\Users\\" ++ (sys.handle (.getenv "USERNAME")
            (sys.handle primaryDriverInstall w).2).1 ++ "\\AppData\\Roaming\\npm\\appium.cmd",
          "C:\\Program Files\\nodejs\\appium.cmd" ] ∧
      opsOf (checkAndInstallUIAutomator2.run sys w).trace =
        [ primaryDriverInstall, .getenv "USERNAME",
          .lookPath "appium", .stat "appium",
          .lookPath ("C:\\Users\\" ++ (sys.handle (.getenv "USERNAME")
            (sys.handle primaryDriverInstall w).2).1 ++ "\\AppData\\Roaming\\npm\\appium.cmd"),
          .stat ("C:\\Users\\" ++ (sys.handle (.getenv "USERNAME")
            (sys.handle primaryDriverInstall w).2).1 ++ "\\AppData\\Roaming\\npm\\appium.cmd"),
          .lookPath "C:\\Program Files\\nodejs\\appium.cmd",
          .stat "C:\\Program Files\\nodejs\\appium.cmd" ]) ∧
    (∀ n p w', firstQualifying sys
        [ "appium",
          "C:\\Users\\" ++ (sys.handle (.getenv "USERNAME")
            (sys.handle primaryDriverInstall w).2).1 ++ "\\AppData\\Roaming\\npm\\appium.cmd",
          "C:\\Program Files\\nodejs\\appium.cmd" ]
        (sys.handle (.getenv "USERNAME") (sys.handle primaryDriverInstall w).2).2 =
          some (n, p, w') →
      e = msgDriverFailed ∧
      probedPaths (checkAndInstallUIAutomator2.run sys w).trace =
        [ "appium",
          "C:\\Users\\" ++ (sys.handle (.getenv "USERNAME")
            (sys.handle primaryDriverInstall w).2).1 ++ "\\AppData\\Roaming\\npm\\appium.cmd",
          "C:\\Program Files\\nodejs\\appium.cmd" ].take (n + 1) ∧
      (opsOf (checkAndInstallUIAutomator2.run sys w).trace).getLast? =
        some (appiumDriverInstall p) ∧
      (sys.handle (appiumDriverInstall p) w').1.2 ≠ none ∧
      ∃ last, (last = [Op.lookPath p] ∨ last = [Op.lookPath p, Op.stat p]) ∧
        opsOf (checkAndInstallUIAutomator2.run sys w).trace =
          primaryDriverInstall :: .getenv "USERNAME" ::
            (([ "appium",
                "C:\\Users\\" ++ (sys.handle (.getenv "USERNAME")
                  (sys.handle primaryDriverInstall w).2).1 ++
                    "\\AppData\\Roaming\\npm\\appium.cmd",
                "C:\\Program Files\\nodejs\\appium.cmd" ].take n).flatMap
                (fun q => [Op.lookPath q, Op.stat q]) ++ last ++ [appiumDriverInstall p])) := by
  obtain ⟨hnone, hsome⟩ := findAppiumCmd_spec sys
    (appiumPaths (sys.handle (.getenv "USERNAME") (sys.handle primaryDriverInstall w).2).1)
    (sys.handle (.getenv "USERNAME") (sys.handle primaryDriverInstall w).2).2
  obtain ⟨honone, hosome⟩ := findAppiumCmd_ops sys
    (appiumPaths (sys.handle (.getenv "USERNAME") (sys.handle primaryDriverInstall w).2).1)
    (sys.handle (.getenv "USERNAME") (sys.handle primaryDriverInstall w).2).2
  refine ⟨?_, fun hfq => ?_, fun n p w' hfq => ?_⟩
  · rw [checkAndInstallUIAutomator2_run] at herr ⊢
    simp only at herr ⊢
    by_cases h1 : (sys.handle primaryDriverInstall w).1.2 = none
    · simp [h1] at herr
    · refine ⟨?_, h1⟩
      split_ifs <;> simp
  · obtain ⟨hv, hp⟩ := hnone hfq
    have hops := honone hfq
    have ho := Outcome.eq_mk _ _ _ hv rfl
    rw [checkAndInstallUIAutomator2_run_of sys w _ _ _ ho] at herr ⊢
    by_cases h1 : (sys.handle primaryDriverInstall w).1.2 = none
    · simp [h1] at herr
    · simp only [h1, if_false, if_true, Option.some.injEq] at herr ⊢
      refine ⟨herr.symm, by rw [probedPaths_driver_head]; exact hp, ?_⟩
      simp only [opsOf, List.map_cons] at hops ⊢
      rw [hops]
      rfl
  · obtain ⟨hv, hw, hget, hp⟩ := hsome n p w' hfq
    obtain ⟨last, hlast, hops⟩ := hosome n p w' hfq
    have hne : p ≠ "" := appiumPaths_ne_empty _ _ (List.getElem?_mem hget)
    have ho := Outcome.eq_mk _ _ _ hv hw
    rw [checkAndInstallUIAutomator2_run_of sys w _ _ _ ho] at herr ⊢
    by_cases h1 : (sys.handle primaryDriverInstall w).1.2 = none
    · simp [h1] at herr
    · simp only [h1, hne, if_false] at herr ⊢
      have hfail : (sys.handle (appiumDriverInstall p) w').1.2 ≠ none := by
        intro h
        simp [h] at herr
      simp only [hfail, if_false, Option.some.injEq] at herr
      refine ⟨herr.symm, ?_, ?_, hfail, last, hlast, ?_⟩
      · rw [probedPaths_driver_head, probedPaths_driver_last]
        exact hp
      · simp only [opsOf, List.map_cons, List.map_append, List.map_nil]
        rw [← List.cons_append, ← List.cons_append, List.getLast?_concat]
      · simp only [opsOf, List.map_cons, List.map_append, List.map_nil] at hops ⊢
        rw [hops]
        rfl

/-- Witness of C3 (amended): on the reference machine where `appium` is on
the search path and every `CombinedOutput` invocation fails, the first path
qualifies and the step fails after probing that path only. -/
theorem fallback_probe_order_witness :
    (checkAndInstallUIAutomator2.run simSys simDriverFails).val = some msgDriverFailed ∧
    firstQualifying simSys
        [ "appium",
          "C:\\Users\\" ++ (simSys.handle (.getenv "USERNAME")
            (simSys.handle primaryDriverInstall simDriverFails).2).1 ++
              "\\AppData\\Roaming\\npm\\appium.cmd",
          "C:\\Program Files\\nodejs\\appium.cmd" ]
        (simSys.handle (.getenv "USERNAME")
          (simSys.handle primaryDriverInstall simDriverFails).2).2 =
      some (0, "appium", simDriverFails) ∧
    probedPaths (checkAndInstallUIAutomator2.run simSys simDriverFails).trace = ["appium"] ∧
    (opsOf (checkAndInstallUIAutomator2.run simSys simDriverFails).trace).getLast? =
      some (appiumDriverInstall "appium") :=
  ⟨by decide, rfl,
    ((fallback_probe_order simSys simDriverFails msgDriverFailed (by decide)).2.2
      0 "appium" simDriverFails rfl).2.1,
    ((fallback_probe_order simSys simDriverFails msgDriverFailed (by decide)).2.2
      0 "appium" simDriverFails rfl).2.2.1⟩

/-- C3, as stated, fails: on the reference machine where `appium` is on the
search path and every `CombinedOutput` invocation fails, the step returns an
error although the second and third fallback paths were never probed
(neither looked up nor stat-ed). -/
theorem fallback_not_all_probed :
    (checkAndInstallUIAutomator2.run simSys simDriverFails).val = some msgDriverFailed ∧
    opsOf (checkAndInstallUIAutomator2.run simSys simDriverFails).trace =
      [ .cmdCombinedOutput ⟨"cmd", ["/C", "npm install -g appium-uiautomator2-driver"], ""⟩,
        .getenv "USERNAME", .lookPath "appium",
        .cmdCombinedOutput ⟨"cmd", ["/C", "appium", "driver", "install", "uiautomator2"], ""⟩ ] ∧
    ¬ (∀ p ∈ [ "appium",
          "C:\\Users\\" ++ "" ++ "\\AppData\\Roaming\\npm\\appium.cmd",
          "C:\\Program Files\\nodejs\\appium.cmd" ],
        Op.lookPath p ∈ opsOf (checkAndInstallUIAutomator2.run simSys simDriverFails).trace ∨
        Op.stat p ∈ opsOf (checkAndInstallUIAutomator2.run simSys simDriverFails).trace) := by
  decide

/-- C4. Result of the driver-install step.  The primary
`npm install -g appium-uiautomator2-driver` invocation is always the first
call; if it succeeds the step succeeds and makes no other call.  If it fails,
the step selects the first path of the list `appium`,
`C:\Users\<USERNAME>\AppData\Roaming\npm\appium.cmd`,
`C:\Program Files\nodejs\appium.cmd` for which
`commandExists(path) || fileExists(path)` holds, and
`<path> driver install uiautomator2` is invoked for that path and no other;
the step succeeds iff that invocation succeeds, and when no path qualifies
(no such invocation is then made) or the invocation fails the step returns an
error telling the user to restart the terminal and run
`appium driver install uiautomator2`. -/
theorem driver_install_result {W : Type} (sys : Sys W) (w : W) :
    (opsOf (checkAndInstallUIAutomator2.run sys w).trace).head? = some primaryDriverInstall ∧
    ((sys.handle primaryDriverInstall w).1.2 = none →
      (checkAndInstallUIAutomator2.run sys w).val = none ∧
      opsOf (checkAndInstallUIAutomator2.run sys w).trace = [primaryDriverInstall]) ∧
    ((sys.handle primaryDriverInstall w).1.2 ≠ none →
      (firstQualifying sys
          [ "appium",
            "C:\\Users\\" ++ (sys.handle (.getenv "USERNAME")
              (sys.handle primaryDriverInstall w).2).1 ++ "\\AppData\\Roaming\\npm\\appium.cmd",
            "C:\\Program Files\\nodejs\\appium.cmd" ]
          (sys.handle (.getenv "USERNAME") (sys.handle primaryDriverInstall w).2).2 = none →
        (checkAndInstallUIAutomator2.run sys w).val = some msgAppiumNotFound ∧
        ∀ q, appiumDriverInstall q ∉ opsOf (checkAndInstallUIAutomator2.run sys w).trace) ∧
      (∀ n p w', firstQualifying sys
          [ "appium",
            "C:\\Users\\" ++ (sys.handle (.getenv "USERNAME")
              (sys.handle primaryDriverInstall w).2).1 ++ "\\AppData\\Roaming\\npm\\appium.cmd",
            "C:\\Program Files\\nodejs\\appium.cmd" ]
          (sys.handle (.getenv "USERNAME") (sys.handle primaryDriverInstall w).2).2 =
            some (n, p, w') →
        (∀ q, appiumDriverInstall q ∈ opsOf (checkAndInstallUIAutomator2.run sys w).trace ↔
          q = p) ∧
        (opsOf (checkAndInstallUIAutomator2.run sys w).trace).getLast? =
          some (appiumDriverInstall p) ∧
        ((checkAndInstallUIAutomator2.run sys w).val = none ↔
          (sys.handle (appiumDriverInstall p) w').1.2 = none) ∧
        ((checkAndInstallUIAutomator2.run sys w).val ≠ none →
          (checkAndInstallUIAutomator2.run sys w).val = some msgDriverFailed))) := by
  obtain ⟨hnone, hsome⟩ := findAppiumCmd_spec sys
    (appiumPaths (sys.handle (.getenv "USERNAME") (sys.handle primaryDriverInstall w).2).1)
    (sys.handle (.getenv "USERNAME") (sys.handle primaryDriverInstall w).2).2
  have hprobe := (findAppiumCmd_isProbe
    (appiumPaths (sys.handle (.getenv "USERNAME") (sys.handle primaryDriverInstall w).2).1)).trace
    sys (sys.handle (.getenv "USERNAME") (sys.handle primaryDriverInstall w).2).2
  have hnotin : ∀ q, appiumDriverInstall q ∉ opsOf ((findAppiumCmd
      (appiumPaths (sys.handle (.getenv "USERNAME") (sys.handle primaryDriverInstall w).2).1)).run
      sys (sys.handle (.getenv "USERNAME") (sys.handle primaryDriverInstall w).2).2).trace := by
    intro q hmem
    simp only [opsOf, List.mem_map] at hmem
    obtain ⟨ev, hev, hop⟩ := hmem
    have := hprobe ev hev
    rw [hop] at this
    exact this
  refine ⟨?_, fun h1 => ?_, fun h1 => ⟨fun hfq => ?_, fun n p w' hfq => ?_⟩⟩
  · rw [checkAndInstallUIAutomator2_run]
    simp only
    split_ifs <;> simp [opsOf]
  · rw [checkAndInstallUIAutomator2_run]
    simp [h1, opsOf]
  · obtain ⟨hv, _⟩ := hnone hfq
    have ho := Outcome.eq_mk _ _ _ hv rfl
    rw [checkAndInstallUIAutomator2_run_of sys w _ _ _ ho]
    simp only [h1, if_false, if_true, true_and]
    intro q hmem
    simp only [opsOf, List.map_cons, List.mem_cons] at hmem
    rcases hmem with h | h | h
    · simp [appiumDriverInstall, primaryDriverInstall] at h
    · simp [appiumDriverInstall] at h
    · exact absurd h (hnotin q)
  · obtain ⟨hv, hw, hget, _⟩ := hsome n p w' hfq
    have hne : p ≠ "" := appiumPaths_ne_empty _ _ (List.getElem?_mem hget)
    have ho := Outcome.eq_mk _ _ _ hv hw
    rw [checkAndInstallUIAutomator2_run_of sys w _ _ _ ho]
    simp only [h1, hne, if_false]
    refine ⟨fun q => ⟨fun hmem => ?_, fun h => ?_⟩, ?_, ?_, ?_⟩
    · simp only [opsOf, List.map_cons, List.map_append, List.map_nil, List.mem_cons,
        List.mem_append, List.mem_singleton, List.not_mem_nil, or_false] at hmem
      rcases hmem with h | h | h | h
      · simp [appiumDriverInstall, primaryDriverInstall] at h
      · simp [appiumDriverInstall] at h
      · exact absurd h (hnotin q)
      · simpa [appiumDriverInstall] using h
    · subst h
      simp [opsOf]
    · simp only [opsOf, List.map_cons, List.map_append, List.map_nil]
      rw [← List.cons_append, ← List.cons_append, List.getLast?_concat]
    · split_ifs with h2 <;> simp [h2]
    · split_ifs with h2 <;> simp [h2]

/-- Witness of C4: on the reference machine of user `bob`, where only the
primary invocation fails and `appium` is installed under the user profile
only, the second path is selected and the step succeeds through it. -/
theorem driver_install_result_witness :
    (simSys.handle primaryDriverInstall simUserProfile).1.2 ≠ none ∧
    firstQualifying simSys
        [ "appium",
          "C:\\Users\\" ++ (simSys.handle (.getenv "USERNAME")
            (simSys.handle primaryDriverInstall simUserProfile).2).1 ++
              "\\AppData\\Roaming\\npm\\appium.cmd",
          "C:\\Program Files\\nodejs\\appium.cmd" ]
        (simSys.handle (.getenv "USERNAME")
          (simSys.handle primaryDriverInstall simUserProfile).2).2 =
      some (1, "C:\\Users\\bob\\AppData\\Roaming\\npm\\appium.cmd", simUserProfile) ∧
    (opsOf (checkAndInstallUIAutomator2.run simSys simUserProfile).trace).getLast? =
      some (appiumDriverInstall "C:\\Users\\bob\\AppData\\Roaming\\npm\\appium.cmd") ∧
    ((checkAndInstallUIAutomator2.run simSys simUserProfile).val = none ↔
      (simSys.handle (appiumDriverInstall "C:\\Users\\bob\\AppData\\Roaming\\npm\\appium.cmd")
        simUserProfile).1.2 = none) :=
  ⟨by decide, rfl,
    (((driver_install_result simSys simUserProfile).2.2 (by decide)).2
      1 "C:\\Users\\bob\\AppData\\Roaming\\npm\\appium.cmd" simUserProfile rfl).2.1,
    (((driver_install_result simSys simUserProfile).2.2 (by decide)).2
      1 "C:\\Users\\bob\\AppData\\Roaming\\npm\\appium.cmd" simUserProfile rfl).2.2.1⟩

/-- C5. Warning isolation in `setEnvironmentVariables`: whatever succeeds or
fails, the step returns `nil`, and its calls are, after the runtime has
chosen the iteration order of the map, one `setx` for each of `JAVA_HOME`
(`installPath/jdk-24.0.1`), `ANDROID_HOME` and `ANDROID_SDK_ROOT` (both
`installPath/android-sdk`), each exactly once in some order, followed by one
`setx PATH` for `installPath/jdk-24.0.1/bin` and then one for
`installPath/android-sdk/platform-tools`. -/
theorem setEnvironmentVariables_warning_isolation {W : Type} (sys : Sys W) (lib : Lib)
    (i : Installer) (w : W) :
    ((setEnvironmentVariables lib i).run sys w).val = none ∧
    ∃ sets : List Op,
      sets.Perm
        [ .cmdRun ⟨"setx", ["JAVA_HOME", lib.join [i.installPath, "jdk-24.0.1"]], ""⟩,
          .cmdRun ⟨"setx", ["ANDROID_HOME", lib.join [i.installPath, "android-sdk"]], ""⟩,
          .cmdRun ⟨"setx", ["ANDROID_SDK_ROOT", lib.join [i.installPath, "android-sdk"]], ""⟩ ] ∧
      opsOf ((setEnvironmentVariables lib i).run sys w).trace =
        .rangeMap 3 :: (sets ++
          [ .cmdRun ⟨"setx", ["PATH", "%PATH%;" ++
              lib.join [lib.join [i.installPath, "jdk-24.0.1"], "bin"]], ""⟩,
            .cmdRun ⟨"setx", ["PATH", "%PATH%;" ++
              lib.join [lib.join [i.installPath, "android-sdk"], "platform-tools"]], ""⟩ ]) := by
  refine ⟨setEnvironmentVariables_val sys lib i w, ?_⟩
  refine ⟨(sys.handle (.rangeMap 3) w).1.val.map
    (fun k => Op.cmdRun ⟨"setx", [(envVars lib i k).1, (envVars lib i k).2], ""⟩), ?_, ?_⟩
  · have hperm := ((sys.handle (.rangeMap 3) w).1.property).map
      (fun k => Op.cmdRun ⟨"setx", [(envVars lib i k).1, (envVars lib i k).2], ""⟩)
    exact hperm
  · have h1 := setEnvVarsLoop_ops sys (envVars lib i) (sys.handle (.rangeMap 3) w).1.val
      (sys.handle (.rangeMap 3) w).2
    have h2 := addPathsLoop_ops sys (pathsToAdd lib i)
      ((setEnvVarsLoop (envVars lib i) (sys.handle (.rangeMap 3) w).1.val).run sys
        (sys.handle (.rangeMap 3) w).2).world
    simp only [opsOf, pathsToAdd, List.map_cons, List.map_nil] at h1 h2
    simp [setEnvironmentVariables, rangeMap, opsOf, h1, h2, pathsToAdd]

/-- C6 (amended). Cleanup gating, for a file system obeying `TempDirLaws`:
in every run of `RunInstallation` that fails, the cleanup step is not invoked
(no `os.RemoveAll` call and no `Cleaning up` progress line occurs), and if
the setup step had succeeded the temporary directory still exists afterward;
in every run in which all steps succeed, the run ends with the cleanup step
calling `os.RemoveAll` on the temporary directory, nothing before it having
done so, and if that removal succeeded the directory does not exist
afterward. -/
theorem cleanup_gating {W : Type} (sys : Sys W) (lib : Lib) (cfg : Config) (i : Installer)
    (w : W) (dirExists : W → Prop) (laws : TempDirLaws sys i.tempPath dirExists) :
    (∀ e, ((RunInstallation lib cfg i).run sys w).val = some e →
      (∀ ev ∈ ((RunInstallation lib cfg i).run sys w).trace, ev.op.notCleanup) ∧
      ((stepOutcome sys 11 0 (steps lib cfg i) w 0).map Outcome.val = some none →
        dirExists ((RunInstallation lib cfg i).run sys w).world)) ∧
    (((RunInstallation lib cfg i).run sys w).val = none →
      ∃ pre r,
        ((RunInstallation lib cfg i).run sys w).trace =
          pre ++ [⟨.stepStart 11 11 "Cleaning up", ()⟩, ⟨.removeAll i.tempPath, r⟩,
            ⟨.stepDone "Cleaning up", ()⟩] ∧
        (∀ ev ∈ pre, ev.op.notCleanup) ∧
        (r = none → ¬ dirExists ((RunInstallation lib cfg i).run sys w).world)) := by
  have hall := (firstTen_all lib cfg i 0).trace sys w
  rw [RunInstallation_run_eq]
  cases hv : ((runSteps 11 0 ((steps lib cfg i).take 10)).run sys w).val with
  | some e' =>
    simp only
    refine ⟨fun e _ => ⟨hall, fun hsetup => firstTen_dirExists sys lib cfg i laws w hsetup⟩, ?_⟩
    intro h
    rw [hv] at h
    simp at h
  | none =>
    simp only
    refine ⟨fun e h => by simp at h, fun _ => ⟨_, _, rfl, hall, fun hr hex => ?_⟩⟩
    exact laws.removed _ hr (laws.printed _ _ hex)

/-- Witness of C6 (amended): the reference machine obeys the laws; without
network the run fails after setup and the temporary directory is still there,
and with the four tools present the run succeeds and the directory is gone. -/
theorem cleanup_gating_witness :
    TempDirLaws simSys simInstaller.tempPath (fun w => simInstaller.tempPath ∈ w.dirs) ∧
    ((RunInstallation simLib simCfg simInstaller).run simSys simNoNetwork).val =
      some "Installing Node.js failed: download failed: connection refused" ∧
    simInstaller.tempPath ∈
      ((RunInstallation simLib simCfg simInstaller).run simSys simNoNetwork).world.dirs ∧
    ((RunInstallation simLib simCfg simInstaller).run simSys simInstalled).val = none ∧
    simInstaller.tempPath ∉
      ((RunInstallation simLib simCfg simInstaller).run simSys simInstalled).world.dirs :=
  ⟨simTempDirLaws _, by decide,
    ((cleanup_gating simSys simLib simCfg simInstaller simNoNetwork _ (simTempDirLaws _)).1
      "Installing Node.js failed: download failed: connection refused" (by decide)).2
      (by decide),
    by decide, by decide⟩

/-- C6, as stated, fails on both sides.  On the reference machine where the
install root cannot be created the setup step fails, and afterward the
temporary directory does not exist: it was never created.  On the reference
machine where removing a directory fails every step succeeds, the cleanup
step swallowing the error, and afterward the temporary directory still
exists. -/
theorem cleanup_gating_counterexample :
    (((RunInstallation simLib simCfg simInstaller).run simSys simSetupFails).val =
        some "Setting up directories failed: Access is denied." ∧
      simInstaller.tempPath ∉
        ((RunInstallation simLib simCfg simInstaller).run simSys simSetupFails).world.dirs ∧
      (simSys.handle (.stat simInstaller.tempPath)
        ((RunInstallation simLib simCfg simInstaller).run simSys simSetupFails).world).1 =
          .notExist) ∧
    (((RunInstallation simLib simCfg simInstaller).run simSys simCleanupFails).val = none ∧
      simInstaller.tempPath ∈
        ((RunInstallation simLib simCfg simInstaller).run simSys simCleanupFails).world.dirs ∧
      (simSys.handle (.stat simInstaller.tempPath)
        ((RunInstallation simLib simCfg simInstaller).run simSys simCleanupFails).world).1 =
          .ok) := by
  decide

/-- C7 (amended). Error wrapping: whenever `RunInstallation` fails, the error
is the failing step's name followed by `" failed: "` and the error the step
returned, the pipeline adding exactly this one wrapper.  What the step
returned is the cause reported by its last collaborator call, unwrapped for
the setup step, and under the step's own label (`download failed: `,
`installation failed: `, `extraction failed: `,
`failed to create directory: `, `npm install failed: `) for the Node.js, JDK,
ADB, Appium and project-dependency steps; the driver step returns one of its
two fixed messages. -/
theorem pipeline_error_wrapping {W : Type} (sys : Sys W) (lib : Lib) (cfg : Config)
    (i : Installer) (w : W) (e : String)
    (h : ((RunInstallation lib cfg i).run sys w).val = some e) :
    (∃ c, lastErr ((RunInstallation lib cfg i).run sys w).trace = some c ∧
      e ∈ [ "Setting up directories failed: " ++ c,
            "Installing Node.js failed: download failed: " ++ c,
            "Installing Node.js failed: installation failed: " ++ c,
            "Installing Java JDK failed: download failed: " ++ c,
            "Installing Java JDK failed: extraction failed: " ++ c,
            "Installing ADB failed: download failed: " ++ c,
            "Installing ADB failed: failed to create directory: " ++ c,
            "Installing ADB failed: extraction failed: " ++ c,
            "Installing Appium failed: npm install failed: " ++ c,
            "Installing Dependencies failed: npm install failed: " ++ c ]) ∨
    e = "Installing UiAutomator2 failed: " ++ msgAppiumNotFound ∨
    e = "Installing UiAutomator2 failed: " ++ msgDriverFailed := by
  obtain ⟨name, fn, w', c', hmem, hc, he, hsuf, _, _⟩ :=
    runSteps_error sys 11 (steps lib cfg i) (steps_all lib cfg i) 0 w e h
  have key : ∀ labels, fn.Labelled labels →
      ∃ c, lastErr ((RunInstallation lib cfg i).run sys w).trace = some c ∧
        ∃ l ∈ labels, e = name ++ " failed: " ++ l ++ c := by
    intro labels hlab
    obtain ⟨c, hlast, l, hl, hel⟩ := hlab W sys w' c' hc
    exact ⟨c, lastErr_of_suffix hsuf hlast, l, hl, by rw [he, hel]; simp only [String.append_assoc]⟩
  simp only [steps, List.mem_cons, Prod.mk.injEq, List.mem_singleton, List.not_mem_nil,
    or_false] at hmem
  rcases hmem with ⟨rfl, rfl⟩ | ⟨rfl, rfl⟩ | ⟨rfl, rfl⟩ | ⟨rfl, rfl⟩ | ⟨rfl, rfl⟩ |
    ⟨rfl, rfl⟩ | ⟨rfl, rfl⟩ | ⟨rfl, rfl⟩ | ⟨rfl, rfl⟩ | ⟨rfl, rfl⟩ | ⟨rfl, rfl⟩
  · obtain ⟨c, hlast, l, hl, hel⟩ := key _ (setup_labelled i)
    simp only [List.mem_singleton] at hl
    subst hl
    exact Or.inl ⟨c, hlast, by rw [hel]; simp⟩
  · obtain ⟨c, hlast, l, hl, hel⟩ := key _ (installNodeJS_labelled lib cfg i)
    simp only [List.mem_cons, List.mem_singleton, List.not_mem_nil, or_false] at hl
    rcases hl with rfl | rfl <;> exact Or.inl ⟨c, hlast, by rw [hel]; simp⟩
  · obtain ⟨c, hlast, l, hl, hel⟩ := key _ (installJava_labelled lib cfg i)
    simp only [List.mem_cons, List.mem_singleton, List.not_mem_nil, or_false] at hl
    rcases hl with rfl | rfl <;> exact Or.inl ⟨c, hlast, by rw [hel]; simp⟩
  · obtain ⟨c, hlast, l, hl, hel⟩ := key _ (checkAndInstallADB_labelled lib cfg i)
    simp only [List.mem_cons, List.mem_singleton, List.not_mem_nil, or_false] at hl
    rcases hl with rfl | rfl | rfl <;> exact Or.inl ⟨c, hlast, by rw [hel]; simp⟩
  · obtain ⟨c, hlast, l, hl, hel⟩ := key _ installAppium_labelled
    simp only [List.mem_singleton] at hl
    subst hl
    exact Or.inl ⟨c, hlast, by rw [hel]; simp⟩
  · rw [refreshEnvironment_val] at hc; simp at hc
  · right
    rcases checkAndInstallUIAutomator2_err sys w' c' hc with rfl | rfl
    · exact Or.inl (by rw [he]; rfl)
    · exact Or.inr (by rw [he]; rfl)
  · obtain ⟨c, hlast, l, hl, hel⟩ := key _ (installDependencies_labelled lib i)
    simp only [List.mem_singleton] at hl
    subst hl
    exact Or.inl ⟨c, hlast, by rw [hel]; simp⟩
  · rw [setEnvironmentVariables_val] at hc; simp at hc
  · rw [verify_val] at hc; simp at hc
  · rw [cleanup_val] at hc; simp at hc

/-- Witness of C7 (amended): on the reference machine without network the
Node.js download fails. -/
theorem pipeline_error_wrapping_witness :
    ((RunInstallation simLib simCfg simInstaller).run simSys simNoNetwork).val =
      some "Installing Node.js failed: download failed: connection refused" ∧
    ((∃ c, lastErr ((RunInstallation simLib simCfg simInstaller).run simSys simNoNetwork).trace =
        some c ∧
      "Installing Node.js failed: download failed: connection refused" ∈
        [ "Setting up directories failed: " ++ c,
          "Installing Node.js failed: download failed: " ++ c,
          "Installing Node.js failed: installation failed: " ++ c,
          "Installing Java JDK failed: download failed: " ++ c,
          "Installing Java JDK failed: extraction failed: " ++ c,
          "Installing ADB failed: download failed: " ++ c,
          "Installing ADB failed: failed to create directory: " ++ c,
          "Installing ADB failed: extraction failed: " ++ c,
          "Installing Appium failed: npm install failed: " ++ c,
          "Installing Dependencies failed: npm install failed: " ++ c ]) ∨
      "Installing Node.js failed: download failed: connection refused" =
        "Installing UiAutomator2 failed: " ++ msgAppiumNotFound ∨
      "Installing Node.js failed: download failed: connection refused" =
        "Installing UiAutomator2 failed: " ++ msgDriverFailed) :=
  ⟨by decide,
    pipeline_error_wrapping simSys simLib simCfg simInstaller simNoNetwork
      "Installing Node.js failed: download failed: connection refused" (by decide)⟩

/-- C7, as stated, fails: on the reference machine without network the
failing collaborator (the download) reports `connection refused`, and the
error of `RunInstallation` is not the step name, `" failed: "` and that
cause: the step has put its own label `download failed: ` around it. -/
theorem pipeline_error_double_wrapped :
    lastErr ((RunInstallation simLib simCfg simInstaller).run simSys simNoNetwork).trace =
      some "connection refused" ∧
    ((RunInstallation simLib simCfg simInstaller).run simSys simNoNetwork).val =
      some "Installing Node.js failed: download failed: connection refused" ∧
    ((RunInstallation simLib simCfg simInstaller).run simSys simNoNetwork).val ≠
      some ("Installing Node.js" ++ " failed: " ++ "connection refused") := by
  decide

/-- C8 (amended). Archive expansion fidelity, for a file system obeying
`FileLaws`: when `extractZip` returns success on an archive no two of whose
non-directory entries have destination paths denoting the same file, every
non-directory entry with name `n`, content `b` and mode `m` results in a file
at `filepath.Join(dest, n)` whose content is exactly `b`, whether or not a
file was there before; the directory `filepath.Dir(filepath.Join(dest, n))`
was created successfully with `os.MkdirAll`, and the file was opened
successfully with `os.OpenFile` given the permission `m`.  The mode the file
ends up with is left to the operating system, and the path is not promised to
lie under `dest`. -/
theorem extractZip_fidelity {W ι : Type} (sys : Sys W) (lib : Lib) (src dest : String) (w : W)
    (ident : String → ι) (contentAt : W → ι → Option (List Nat))
    (laws : FileLaws sys ident contentAt) (files : List ZipFile)
    (hopen : (sys.handle (.zipOpenReader src) w).1 = .ok files)
    (hdistinct : ((filePaths lib dest files).map ident).Nodup)
    (hok : ((extractZip lib src dest).run sys w).val = none) :
    ∀ f ∈ files, f.isDir = false →
      contentAt ((extractZip lib src dest).run sys w).world (ident (lib.join [dest, f.name])) =
          some f.content ∧
      (⟨.mkdirAll (lib.dir (lib.join [dest, f.name])) 0o755, none⟩ : Event) ∈
        ((extractZip lib src dest).run sys w).trace ∧
      (⟨.openFile (lib.join [dest, f.name]) f.mode, none⟩ : Event) ∈
        ((extractZip lib src dest).run sys w).trace := by
  simp only [extractZip, zipOpenReader, run_bind, run_call, run_ret, run_pure, hopen] at hok ⊢
  obtain ⟨h1, _⟩ := extractFiles_fidelity sys lib dest ident contentAt laws files
    (sys.handle (.zipOpenReader src) w).2 hdistinct hok
  intro f hf hd
  exact ⟨(h1 f hf hd).1, by simp [(h1 f hf hd).2.1], by simp [(h1 f hf hd).2.2]⟩

/-- Witness of C8 (amended): the archive with one nested directory holding
one file, expanded on the reference machine. -/
theorem extractZip_fidelity_witness :
    FileLaws simSys id Sim.contentAt ∧
    (simSys.handle (.zipOpenReader "a.zip") simArchive).1 =
      .ok [⟨"d/", true, 0o755, []⟩, ⟨"d/f.txt", false, 0o644, [104, 105]⟩] ∧
    ((filePaths simLib "out"
      [⟨"d/", true, 0o755, []⟩, ⟨"d/f.txt", false, 0o644, [104, 105]⟩]).map id).Nodup ∧
    ((extractZip simLib "a.zip" "out").run simSys simArchive).val = none ∧
    ((extractZip simLib "a.zip" "out").run simSys simArchive).world.contentAt
      "out\\d\\f.txt" = some [104, 105] ∧
    (⟨.mkdirAll "out\\d" 0o755, none⟩ : Event) ∈
      ((extractZip simLib "a.zip" "out").run simSys simArchive).trace ∧
    (⟨.openFile "out\\d\\f.txt" 0o644, none⟩ : Event) ∈
      ((extractZip simLib "a.zip" "out").run simSys simArchive).trace :=
  ⟨simFileLaws, rfl, by decide, by decide,
    extractZip_fidelity simSys simLib "a.zip" "out" simArchive id Sim.contentAt simFileLaws
      [⟨"d/", true, 0o755, []⟩, ⟨"d/f.txt", false, 0o644, [104, 105]⟩]
      rfl (by decide) (by decide)
      ⟨"d/f.txt", false, 0o644, [104, 105]⟩ (by decide) rfl⟩

/-- C8, as stated, fails in three ways on the reference machine, each time
with `extractZip` returning success.  An archive with two entries of the same
name: the content of the first entry is not the content of the file.  An
archive with one file of mode 0666 expanded where created files are withheld
the write bits of group and others: the file has mode 0644, not the entry's.
An archive whose entry is named `../evil.txt`: the file is created beside the
destination `out`, not under it. -/
theorem extractZip_fidelity_counterexample :
    (((extractZip simLib "a.zip" "out").run simSys simArchiveDup).val = none ∧
      (simSys.handle (.zipOpenReader "a.zip") simArchiveDup).1 =
        .ok [⟨"f.txt", false, 0o644, [1]⟩, ⟨"f.txt", false, 0o644, [2]⟩] ∧
      simLib.join ["out", "f.txt"] = "out\\f.txt" ∧
      ((extractZip simLib "a.zip" "out").run simSys simArchiveDup).world.fileAt "out\\f.txt" =
        some ([2], 0o644) ∧
      ((extractZip simLib "a.zip" "out").run simSys simArchiveDup).world.fileAt "out\\f.txt" ≠
        some ([1], 0o644)) ∧
    (((extractZip simLib "a.zip" "out").run simSys simArchiveUmask).val = none ∧
      (simSys.handle (.zipOpenReader "a.zip") simArchiveUmask).1 =
        .ok [⟨"f.txt", false, 0o666, [1]⟩] ∧
      simArchiveUmask.fileAt "out\\f.txt" = none ∧
      ((extractZip simLib "a.zip" "out").run simSys simArchiveUmask).world.fileAt "out\\f.txt" =
        some ([1], 0o644) ∧
      ((extractZip simLib "a.zip" "out").run simSys simArchiveUmask).world.fileAt "out\\f.txt" ≠
        some ([1], 0o666)) ∧
    (((extractZip simLib "a.zip" "out").run simSys simArchiveSlip).val = none ∧
      (simSys.handle (.zipOpenReader "a.zip") simArchiveSlip).1 =
        .ok [⟨"../evil.txt", false, 0o644, [1]⟩] ∧
      simLib.join ["out", "../evil.txt"] = "evil.txt" ∧
      ((extractZip simLib "a.zip" "out").run simSys simArchiveSlip).world.fileAt "evil.txt" =
        some ([1], 0o644) ∧
      ((extractZip simLib "a.zip" "out").run simSys simArchiveSlip).world.files.map Prod.fst =
        ["evil.txt"]) :=
  ⟨⟨by decide, rfl, by decide, by decide, by decide⟩,
    ⟨by decide, rfl, by decide, by decide, by decide⟩,
    ⟨by decide, rfl, by decide, by decide, by decide⟩⟩

/-- C9. The best-effort steps never fail: whatever the collaborators answer,
`refreshEnvironment`, `setEnvironmentVariables`, `verify` and `cleanup`
return `nil`.  Consequently a run of `RunInstallation` either succeeds or
stops, with the error `<name> failed: <cause>`, at one of the steps setup,
Node.js, JDK, ADB, Appium, UiAutomator2 driver or project dependencies, that
step being the last one started.  The verification step is the penultimate
of the eleven steps of the plan. -/
theorem best_effort_steps_never_fail {W : Type} (sys : Sys W) (lib : Lib) (cfg : Config)
    (i : Installer) (w : W) :
    ((refreshEnvironment lib).run sys w).val = none ∧
    ((setEnvironmentVariables lib i).run sys w).val = none ∧
    (verify.run sys w).val = none ∧
    ((cleanup i).run sys w).val = none ∧
    (((RunInstallation lib cfg i).run sys w).val = none ∨
      ∃ name ∈ ["Setting up directories", "Installing Node.js", "Installing Java JDK",
          "Installing ADB", "Installing Appium", "Installing UiAutomator2",
          "Installing Dependencies"],
        ∃ c, ((RunInstallation lib cfg i).run sys w).val = some (name ++ " failed: " ++ c) ∧
          ((stepsInvoked ((RunInstallation lib cfg i).run sys w).trace).getLast?).map Prod.snd =
            some name) ∧
    (steps lib cfg i).length = 11 ∧
    (steps lib cfg i)[9]? = some ("Verifying Installation", verify) := by
  refine ⟨refreshEnvironment_val sys lib w, setEnvironmentVariables_val sys lib i w,
    verify_val sys w, cleanup_val sys i w, ?_, rfl, rfl⟩
  cases hv : ((RunInstallation lib cfg i).run sys w).val with
  | none => exact Or.inl rfl
  | some e =>
    right
    obtain ⟨name, fn, w', c, hmem, hc, he, _, _, hinv⟩ :=
      runSteps_error sys 11 (steps lib cfg i) (steps_all lib cfg i) 0 w e hv
    simp only [steps, List.mem_cons, Prod.mk.injEq, List.mem_singleton, List.not_mem_nil,
      or_false] at hmem
    rcases hmem with ⟨rfl, rfl⟩ | ⟨rfl, rfl⟩ | ⟨rfl, rfl⟩ | ⟨rfl, rfl⟩ | ⟨rfl, rfl⟩ |
      ⟨rfl, rfl⟩ | ⟨rfl, rfl⟩ | ⟨rfl, rfl⟩ | ⟨rfl, rfl⟩ | ⟨rfl, rfl⟩ | ⟨rfl, rfl⟩
    · exact ⟨_, by simp, c, by rw [he], hinv⟩
    · exact ⟨_, by simp, c, by rw [he], hinv⟩
    · exact ⟨_, by simp, c, by rw [he], hinv⟩
    · exact ⟨_, by simp, c, by rw [he], hinv⟩
    · exact ⟨_, by simp, c, by rw [he], hinv⟩
    · rw [refreshEnvironment_val] at hc; simp at hc
    · exact ⟨_, by simp, c, by rw [he], hinv⟩
    · exact ⟨_, by simp, c, by rw [he], hinv⟩
    · rw [setEnvironmentVariables_val] at hc; simp at hc
    · rw [verify_val] at hc; simp at hc
    · rw [cleanup_val] at hc; simp at hc

/-- C10 (amended). `installDependencies` invokes `npm install`, with the
working directory set to the project path, if and only if neither `os.Stat`
of the project directory nor `os.Stat` of its `package.json` reports a
not-exist error (a `Stat` failing for another reason counts as present); if
either reports not-exist the step returns `nil` having invoked no command,
and when the command is invoked the step fails exactly when the command
fails, with `npm install failed: <cause>`. -/
theorem installDependencies_result {W : Type} (sys : Sys W) (lib : Lib) (i : Installer) (w : W) :
    (Op.cmdRun ⟨"npm", ["install"], i.projectPath⟩ ∈
        opsOf ((installDependencies lib i).run sys w).trace ↔
      (sys.handle (.stat i.projectPath) w).1 ≠ .notExist ∧
      (sys.handle (.stat (lib.join [i.projectPath, "package.json"]))
        (sys.handle (.stat i.projectPath) w).2).1 ≠ .notExist) ∧
    ((sys.handle (.stat i.projectPath) w).1 = .notExist →
      ((installDependencies lib i).run sys w).val = none ∧
      opsOf ((installDependencies lib i).run sys w).trace = [.stat i.projectPath]) ∧
    ((sys.handle (.stat i.projectPath) w).1 ≠ .notExist →
      (sys.handle (.stat (lib.join [i.projectPath, "package.json"]))
        (sys.handle (.stat i.projectPath) w).2).1 = .notExist →
      ((installDependencies lib i).run sys w).val = none ∧
      opsOf ((installDependencies lib i).run sys w).trace =
        [.stat i.projectPath, .stat (lib.join [i.projectPath, "package.json"])]) ∧
    ((sys.handle (.stat i.projectPath) w).1 ≠ .notExist →
      (sys.handle (.stat (lib.join [i.projectPath, "package.json"]))
        (sys.handle (.stat i.projectPath) w).2).1 ≠ .notExist →
      opsOf ((installDependencies lib i).run sys w).trace =
        [.stat i.projectPath, .stat (lib.join [i.projectPath, "package.json"]),
          .cmdRun ⟨"npm", ["install"], i.projectPath⟩] ∧
      (((installDependencies lib i).run sys w).val = none ↔
        (sys.handle (.cmdRun ⟨"npm", ["install"], i.projectPath⟩)
          (sys.handle (.stat (lib.join [i.projectPath, "package.json"]))
            (sys.handle (.stat i.projectPath) w).2).2).1 = none) ∧
      ∀ c, (sys.handle (.cmdRun ⟨"npm", ["install"], i.projectPath⟩)
          (sys.handle (.stat (lib.join [i.projectPath, "package.json"]))
            (sys.handle (.stat i.projectPath) w).2).2).1 = some c →
        ((installDependencies lib i).run sys w).val = some ("npm install failed: " ++ c)) := by
  have hne : ∀ st : StatResult, isNotExist st = true ↔ st = .notExist := by
    intro st; cases st <;> simp [isNotExist]
  simp only [installDependencies, osStat, cmdRun, run_bind, run_call, run_ret, run_pure, hne]
  by_cases h1 : (sys.handle (.stat i.projectPath) w).1 = .notExist
  · simp [h1, opsOf]
  · by_cases h2 : (sys.handle (.stat (lib.join [i.projectPath, "package.json"]))
        (sys.handle (.stat i.projectPath) w).2).1 = .notExist
    · simp [h1, h2, opsOf]
    · simp only [h1, h2, if_false, run_bind, run_call, run_ret, run_pure]
      cases h3 : (sys.handle (.cmdRun ⟨"npm", ["install"], i.projectPath⟩)
          (sys.handle (.stat (lib.join [i.projectPath, "package.json"]))
            (sys.handle (.stat i.projectPath) w).2).2).1 with
      | none => simp [opsOf, h3, h1, h2]
      | some v =>
        simp only [opsOf, h3, h1, h2]
        simp only [run_pure, List.map_cons, List.map_nil, List.mem_cons, List.mem_singleton,
          reduceCtorEq, not_false_eq_true, and_self, or_true, true_and, false_implies,
          implies_true, and_true, false_iff, true_iff, Option.some.injEq, iff_true,
          List.append_nil, List.singleton_append, List.nil_append, List.cons_append,
          List.not_mem_nil, or_false, IsEmpty.forall_iff]
        refine ⟨⟨h1, h2⟩, fun _ _ c hc => ?_⟩
        cases hc
        rfl

/-- Witness of C10 (amended): the reference machine with the invalid project
name, where both `Stat` calls fail with another error and `npm install` is
run. -/
theorem installDependencies_result_witness :
    (simSys.handle (.stat simBadNameInstaller.projectPath) simBadName).1 ≠ .notExist ∧
    (simSys.handle (.stat (simLib.join [simBadNameInstaller.projectPath, "package.json"]))
      (simSys.handle (.stat simBadNameInstaller.projectPath) simBadName).2).1 ≠ .notExist ∧
    opsOf ((installDependencies simLib simBadNameInstaller).run simSys simBadName).trace =
      [.stat simBadNameInstaller.projectPath,
        .stat (simLib.join [simBadNameInstaller.projectPath, "package.json"]),
        .cmdRun ⟨"npm", ["install"], simBadNameInstaller.projectPath⟩] :=
  ⟨by decide, by decide,
    ((installDependencies_result simSys simLib simBadNameInstaller simBadName).2.2.2
      (by decide) (by decide)).1⟩

/-- C10, as stated, fails: on the reference machine the project directory
and its manifest are absent (the project path is not even a valid name), yet
`os.Stat` reports an error other than not-exist, `npm install` is invoked in
that directory, and the step fails. -/
theorem installDependencies_runs_without_project :
    "C:\\Appium?Project" ∉ simBadName.dirs ∧
    simBadName.fileAt "C:\\Appium?Project" = none ∧
    simBadName.fileAt "C:\\Appium?Project\\package.json" = none ∧
    Op.cmdRun ⟨"npm", ["install"], "C:\\Appium?Project"⟩ ∈
      opsOf ((installDependencies simLib simBadNameInstaller).run simSys simBadName).trace ∧
    ((installDependencies simLib simBadNameInstaller).run simSys simBadName).val ≠ none := by
  decide

end AppiumInstaller
